import Mathlib

/-!
# SSLConfiguration: the assessment request, the PDF report and the HTTP handlers

A shallow embedding of `main.go`.  The program is a thin layer of glue around
external collaborators: the HTTP client and server, the JSON decoder, the
clock, the template engine and the `gofpdf` document object.  Their answers are
the fields of `Env`; the calls the program makes on them are recorded, in
program order, as `Event`s (for the process) and `PdfOp`s (for the document).
-/

set_option autoImplicit false

namespace SSLConfiguration

/-! ## Data model (`main.go`, lines 15-59) -/

/-- Go `float64` arguments.  Every literal the program passes is a decimal
constant, read here at its exact value. -/
abbrev float64 := ℚ

/-- Go `error`: `none` is `nil`, `some msg` an error whose text is `msg`. -/
abbrev GoError := Option String

/-- Go struct `APIServiceInfo`. -/
structure APIServiceInfo where
  EngineVersion : String
  CriteriaVersion : String
  ClientMaxAssessments : Int
  Messages : List String
  deriving DecidableEq, Repr

/-- Go struct `Endpoint`. -/
structure Endpoint where
  IPAddress : String
  ServerName : String
  StatusMessage : String
  Grade : String
  GradeTrustIgnored : String
  HasWarnings : Bool
  IsExceptional : Bool
  deriving DecidableEq, Repr

/-- Go struct `Response`; it has no top-level status message field. -/
structure Response where
  Host : String
  Port : Int
  Protocol : String
  IsPublic : Bool
  Status : String
  StartTime : Int
  TestTime : Int
  EngineVersion : String
  CriteriaVersion : String
  Endpoints : List Endpoint
  deriving DecidableEq, Repr

/-- Go struct `AnalysisStatus`. -/
structure AnalysisStatus where
  Completed : Bool
  Error : String
  Result : String
  Name : String
  deriving DecidableEq, Repr

/-- The zero value of `Response`, as declared by `var response Response`. -/
def Response.zero : Response :=
  { Host := "", Port := 0, Protocol := "", IsPublic := false, Status := "",
    StartTime := 0, TestTime := 0, EngineVersion := "", CriteriaVersion := "",
    Endpoints := [] }

def defaultServerPort : String := ":8080"
def sslLabsAPIBaseURL : String := "https://api.ssllabs.com/api/v3/analyze"
def filesBaseURL : String := "files/"

/-- The literal URL requested by `checkAPIService`. -/
def sslLabsInfoURL : String := "https://api.ssllabs.com/api/v2/info"

/-! ## The document object -/

/-- One method call on the `gofpdf` document, with its arguments. -/
inductive PdfOp where
  | New (orientationStr unitStr sizeStr fontDirStr : String)
  | AddPage
  | SetFont (familyStr styleStr : String) (size : float64)
  | Cell (w h : float64) (txtStr : String)
  | Ln (h : float64)
  | SetFillColor (r g b : Nat)
  | SetTextColor (r g b : Nat)
  | SetDrawColor (r g b : Nat)
  | SetLineWidth (width : float64)
  | CellFormat (w h : float64) (txtStr borderStr : String) (ln : Int)
      (alignStr : String) (fill : Bool) (link : Int) (linkStr : String)
  deriving DecidableEq, Repr

/-! ## The process and its surroundings -/

/-- The handlers `main` installs.  `StripPrefix` and `FileServer` are the
`net/http` combinators of line 73; `FileServer root` stands for
`http.FileServer(http.Dir(root))`. -/
inductive Handler where
  | indexHandler
  | analyzeHandler
  | StripPrefix (pfx : String) (h : Handler)
  | FileServer (root : String)
  deriving DecidableEq, Repr

/-- The observable calls of the program, in the order it makes them. -/
inductive Event where
  /-- Call of `http.Get(url)`. -/
  | httpGet (url : String)
  /-- Line `msg` written by `log.Printf` / `log.Println`. -/
  | logPrint (msg : String)
  /-- Line `msg` written by `log.Fatalf` / `log.Fatal`; the process then exits with status 1. -/
  | logFatal (msg : String)
  /-- Text `msg` written to standard output by `fmt.Println` / `fmt.Printf`. -/
  | stdout (msg : String)
  /-- Entry into `fetchSSLData(host)`. -/
  | fetchSSLDataCalled (host : String)
  /-- Entry into `generatePDF(response)`. -/
  | generatePDFCalled (response : Response)
  /-- Call of `pdf.OutputFileAndClose(filename)` on the document `doc`. -/
  | outputFile (filename : String) (doc : List PdfOp)
  /-- Call of `http.HandleFunc(pattern, h)` / `http.Handle(pattern, h)`. -/
  | handle (pattern : String) (h : Handler)
  /-- Entry into `http.ListenAndServe(addr, nil)`. -/
  | listenAndServe (addr : String)
  deriving DecidableEq, Repr

/-- What the surroundings answer to the program's calls. -/
structure Env where
  /-- The function `os.Getenv`. -/
  getenv : String → String
  /-- Result of `http.Get(url)`: a transport error, or the body of the response.  The
  program never looks at the response's status code. -/
  httpGet : String → Except String String
  /-- Result of `json.NewDecoder(body).Decode(&info)` into a zero `APIServiceInfo`. -/
  decodeInfo : String → Except String APIServiceInfo
  /-- Result of `json.NewDecoder(body).Decode(&response)` into the zero `Response`: the
  value left in `response` and the error returned. -/
  decodeResponse : String → Response × GoError
  /-- Value of `time.Now().Format("2006-01-02 15:04:05")`. -/
  now : String
  /-- Result of `pdf.OutputFileAndClose(filename)` on the given document. -/
  outputFileAndClose : String → List PdfOp → GoError
  /-- Result of `template.ParseFiles(name)`: the parse error, if any. -/
  parseFiles : String → GoError
  /-- Result of `http.ListenAndServe(addr, nil)`: the error it returns, `none` when it
  keeps serving and never returns. -/
  listenAndServe : String → GoError

/-- An incoming request, as far as the handlers read it. -/
structure Request where
  Method : String
  Host : String
  FormValue : String → String

/-- What a handler sends back. -/
inductive Reply where
  /-- Reply of `http.Redirect(w, r, url, code)`. -/
  | redirect (url : String) (code : Nat)
  /-- Reply of `http.Error(w, msg, code)`. -/
  | error (msg : String) (code : Nat)
  /-- Reply of `ExecuteTemplate(w, name, data)` after `Content-Type` was set. -/
  | executeTemplate (contentType name : String) (data : AnalysisStatus)
  /-- Panic of `template.Must` on a parse error; no body is written. -/
  | panicked (err : String)
  deriving DecidableEq, Repr

/-- How a function of the process ends. -/
inductive Exec (α : Type) where
  | returned (a : α)
  /-- Exit by `os.Exit(code)`, reached through `log.Fatalf` / `log.Fatal`. -/
  | exited (code : Nat)
  /-- The call is still inside `http.ListenAndServe`, serving requests. -/
  | serving
  deriving DecidableEq, Repr

/-! ## `fetchSSLData` (lines 140-158) -/

def fetchSSLData (env : Env) (host : String) : (Response × GoError) × List Event :=
  let response := Response.zero
  let url := sslLabsAPIBaseURL ++ "?host=" ++ host
  match env.httpGet url with
  | .error err =>
    ((response, some err),
      [.httpGet url, .logPrint ("Error executing request to SSL Labs API: " ++ err ++ "\n")])
  | .ok body =>
    match env.decodeResponse body with
    | (response, some err) =>
      ((response, some err),
        [.httpGet url, .logPrint ("Error decoding response from SSL Labs API: " ++ err ++ "\n")])
    | (response, none) => ((response, none), [.httpGet url])

/-! ## `generatePDF` (lines 160-215) -/

/-- The text `fmt.Sprintf("%t", b)`. -/
def sprintfBool (b : Bool) : String := if b then "true" else "false"

def header : List String :=
  ["IP Address", "Server Name", "Status Message", "Grade", "Grade Trust Ignored",
    "Has Warnings", "Is Exceptional"]

/-- Column widths. -/
def w : List float64 := [40, 35, 40, 15, 20, 20, 20]

/-- Slice indexing `w[i]`; every index the program uses is below `len(w) = 7`. -/
def wAt (i : Nat) : float64 := w.getD i 0

/-- The loop of lines 189-191. -/
def headerOps : List PdfOp :=
  header.enum.map fun (i, str) => .CellFormat (wAt i) 7 str "1" 0 "C" true 0 ""

/-- The body of the loop of lines 195-205 for one endpoint. -/
def endpointOps (ep : Endpoint) : List PdfOp :=
  [ .SetFillColor 224 235 255,
    .CellFormat (wAt 0) 6 ep.IPAddress "1" 0 "L" false 0 "",
    .CellFormat (wAt 1) 6 ep.ServerName "1" 0 "L" false 0 "",
    .CellFormat (wAt 2) 6 ep.StatusMessage "1" 0 "L" false 0 "",
    .CellFormat (wAt 3) 6 ep.Grade "1" 0 "L" false 0 "",
    .CellFormat (wAt 4) 6 ep.GradeTrustIgnored "1" 0 "L" false 0 "",
    .CellFormat (wAt 5) 6 (sprintfBool ep.HasWarnings) "1" 0 "L" false 0 "",
    .CellFormat (wAt 6) 6 (sprintfBool ep.IsExceptional) "1" 0 "L" false 0 "",
    .Ln (-1) ]

/-- The calls `generatePDF` makes on `pdf` before `OutputFileAndClose`
(lines 161-205); `now` is the formatted clock reading. -/
def pdfOps (now : String) (response : Response) : List PdfOp :=
  [ .New "P" "mm" "A4" "",
    .AddPage,
    .SetFont "Arial" "B" 16,
    .Cell 0 10 "SSL Labs API Response",
    .Ln 20,
    .SetFont "Arial" "" 12,
    .Cell 0 10 ("Host: " ++ response.Host),
    .Ln 12,
    .SetFont "Arial" "" 10,
    .Cell 0 10 ("Timestamp: " ++ now),
    .Ln 15,
    .SetFont "Arial" "" 10,
    .SetFillColor 240 240 240,
    .SetTextColor 0 0 0,
    .SetDrawColor 0 0 0,
    .SetLineWidth 0.3 ]
  ++ headerOps
  ++ [.Ln (-1)]
  ++ response.Endpoints.flatMap endpointOps

def generatePDF (env : Env) (response : Response) : (String × GoError) × List Event :=
  let pdf := pdfOps env.now response
  let filename := filesBaseURL ++ "ssl_report_" ++ response.Host ++ ".pdf"
  match env.outputFileAndClose filename pdf with
  | some err => (("", some ("error generating PDF: " ++ err)), [.outputFile filename pdf])
  | none =>
    let pdfURL := filename
    ((pdfURL, none), [.outputFile filename pdf])

/-! ## `analyzeHandler` (lines 83-114) -/

def analyzeHandler (env : Env) (r : Request) : Reply × List Event :=
  if r.Method ≠ "POST" then (.redirect "/" 303, [])
  else
    let host := r.FormValue "host"
    if host = "" then (.error "Host is required" 400, [])
    else
      match fetchSSLData env host with
      | ((_, some err), t₁) =>
        (.error "Failed to fetch SSL data" 500,
          [.fetchSSLDataCalled host] ++ t₁
            ++ [.logPrint ("Failed to fetch SSL data for " ++ host ++ ": " ++ err)])
      | ((response, none), t₁) =>
        match generatePDF env response with
        | ((_, some err), t₂) =>
          (.error "Failed to generate PDF" 500,
            [.fetchSSLDataCalled host] ++ t₁ ++ [.generatePDFCalled response] ++ t₂
              ++ [.logPrint ("Failed to generate PDF for " ++ host ++ ": " ++ err)])
        | ((pdfName, none), t₂) =>
          let pdfPath := "http://" ++ r.Host ++ "/" ++ pdfName
          let t := [.fetchSSLDataCalled host] ++ t₁ ++ [.generatePDFCalled response] ++ t₂
          match env.parseFiles "index.html" with
          | some err => (.panicked err, t)
          | none =>
            (.executeTemplate "application/json" "result"
                { Result := pdfPath, Completed := true, Error := "", Name := pdfName }, t)

/-! ## `checkAPIService` (lines 116-138) and `main` (lines 61-76) -/

def checkAPIService (env : Env) : Exec Bool × List Event :=
  match env.httpGet sslLabsInfoURL with
  | .error err =>
    (.exited 1,
      [.httpGet sslLabsInfoURL, .logFatal ("Failed to fetch API service info: " ++ err ++ "\n")])
  | .ok body =>
    match env.decodeInfo body with
    | .error err =>
      (.exited 1,
        [.httpGet sslLabsInfoURL,
          .logFatal ("Failed to decode API service info: " ++ err ++ "\n")])
    | .ok info =>
      (.returned true,
        [ .httpGet sslLabsInfoURL,
          .stdout "SSL Labs API Service Information:\n",
          .stdout ("Engine Version: " ++ info.EngineVersion ++ "\n"),
          .stdout ("Criteria Version: " ++ info.CriteriaVersion ++ "\n") ]
        ++ info.Messages.map fun message => .stdout (message ++ "\n"))

/-- The handler of line 73. -/
def filesHandler : Handler := .StripPrefix "/files/" (.FileServer "files")

/-- The part of `main` after a successful `checkAPIService` (lines 70-75). -/
def serve (env : Env) (serverPort : String) : Exec Unit × List Event :=
  let t : List Event :=
    [ .handle "/" .indexHandler,
      .handle "/analyze" .analyzeHandler,
      .handle "/files/" filesHandler,
      .stdout ("Server starting on " ++ serverPort ++ "\n"),
      .listenAndServe serverPort ]
  match env.listenAndServe serverPort with
  | none => (.serving, t)
  | some err => (.exited 1, t ++ [.logFatal err])

def main (env : Env) : Exec Unit × List Event :=
  let serverPort := if env.getenv "SERVER_PORT" = "" then defaultServerPort
    else env.getenv "SERVER_PORT"
  match checkAPIService env with
  | (.exited code, t) => (.exited code, t)
  | (.serving, t) => (.serving, t)
  | (.returned ok, t) =>
    if !ok then
      (.returned (), t ++ [.logPrint "SSL Labs API service is not available. Exiting.\n"])
    else
      let (e, t') := serve env serverPort
      (e, t ++ t')

/-! ## Reading a document back

Two independent readings of the list of calls made on the document: the
sequence of printed cells and line breaks, and the printed rows. -/

/-- A printed cell or a line break. -/
inductive Item where
  | cell (width : float64) (txtStr : String) (shaded : Bool)
  | br (h : float64)
  deriving DecidableEq, Repr

/-- The cell or line break a call prints, if it prints one.  `Cell(w, h, txt)`
is `CellFormat` without border, fill or link. -/
def PdfOp.item : PdfOp → Option Item
  | .Cell width _ txtStr => some (.cell width txtStr false)
  | .CellFormat width _ txtStr _ _ _ fill _ _ => some (.cell width txtStr fill)
  | .Ln h => some (.br h)
  | _ => none

/-- The cells and line breaks of a document, in the order they are printed. -/
def layout (doc : List PdfOp) : List Item := doc.filterMap PdfOp.item

/-- The text of the cell a call prints, if it prints one. -/
def PdfOp.text : PdfOp → Option String
  | .Cell _ _ txtStr => some txtStr
  | .CellFormat _ _ txtStr _ _ _ _ _ _ => some txtStr
  | _ => none

/-- The rows of a document: the texts of the cells printed between one line
break and the next. -/
def rows : List PdfOp → List (List String)
  | [] => []
  | .Ln _ :: ops => [] :: rows ops
  | op :: ops =>
    match op.text, rows ops with
    | some t, row :: rest => (t :: row) :: rest
    | some t, [] => [[t]]
    | none, rest => rest

/-! ## The static file route

Line 73 hands every request under `/files/` to
`http.StripPrefix("/files/", http.FileServer(http.Dir("files")))`, and the link
built on line 110 is read as a URL.  The functions below belong to the Go
standard library (`net/url`, `net/http`, `path`), not to this repository; they
are written out from the library, on lists of characters, with `/` as the file
path separator.  A result `none` or `false` means that the library rejects the
input or that the input has a form left out here; the forms left out are
authorities that start with a bracket (IP literals) and percent escapes of
bytes outside ASCII in a path. -/

/-- Value of a hexadecimal digit (`net/url`, `unhex`). -/
def unhex (c : Char) : Option Nat :=
  if '0' ≤ c ∧ c ≤ '9' then some (c.toNat - '0'.toNat)
  else if 'a' ≤ c ∧ c ≤ 'f' then some (c.toNat - 'a'.toNat + 10)
  else if 'A' ≤ c ∧ c ≤ 'F' then some (c.toNat - 'A'.toNat + 10)
  else none

/-- An ASCII control character: below 0x20, or 0x7f
(`net/url`, `stringContainsCTLByte`). -/
def isCTL (c : Char) : Bool := c.toNat < 0x20 || c.toNat == 0x7f

/-- An ASCII letter or digit. -/
def isAlnum (c : Char) : Bool :=
  ('a' ≤ c && c ≤ 'z') || ('A' ≤ c && c ≤ 'Z') || ('0' ≤ c && c ≤ '9')

/-- An ASCII digit. -/
def isDigit (c : Char) : Bool := '0' ≤ c && c ≤ '9'

/-- The parts of a URL that `net/url` escapes differently, as far as parsing a
link goes through them. -/
inductive encoding where
  | encodePath
  | encodeUserPassword
  | encodeHost
  | encodeFragment
  deriving DecidableEq, Repr

/-- Go `shouldEscape(c, mode)` of `net/url`, for an ASCII character. -/
def shouldEscape (c : Char) (mode : encoding) : Bool :=
  if isAlnum c then false
  else if mode = .encodeHost ∧
      c ∈ ['!', '$', '&', '\'', '(', ')', '*', '+', ',', ';', '=', ':', '[', ']', '<', '>', '"']
    then false
  else if c ∈ ['-', '_', '.', '~'] then false
  else if c ∈ ['$', '&', '+', ',', '/', ':', ';', '=', '?', '@'] then
    match mode with
    | .encodePath => c == '?'
    | .encodeUserPassword => c == '@' || c == '/' || c == '?' || c == ':'
    | .encodeFragment => false
    | .encodeHost => true
  else if mode = .encodeFragment ∧ c ∈ ['!', '(', ')', '*'] then false
  else true

/-- The checking pass of `net/url`'s `unescape`: every `%` is followed by two
hexadecimal digits; in a host an escape of an ASCII byte other than `%25` and
an ASCII character that `shouldEscape` are errors. -/
def escapesOK (mode : encoding) : List Char → Bool
  | [] => true
  | c :: rest =>
    if c = '%' then
      match rest with
      | a :: b :: rest' =>
        match unhex a, unhex b with
        | some x, some _ =>
          if mode = .encodeHost ∧ x < 8 ∧ ¬(a = '2' ∧ b = '5') then false
          else escapesOK mode rest'
        | _, _ => false
      | _ => false
    else if mode = .encodeHost ∧ c.toNat < 0x80 ∧ shouldEscape c .encodeHost then false
    else escapesOK mode rest

/-- The decoding pass of `unescape` outside query components: every `%XY` is
replaced by the character with that code.  An escape of a byte outside ASCII
is left out (`none`). -/
def decodeEscapes : List Char → Option (List Char)
  | [] => some []
  | c :: rest =>
    if c = '%' then
      match rest with
      | a :: b :: rest' =>
        match unhex a, unhex b with
        | some x, some y =>
          if 16 * x + y < 0x80 then
            (decodeEscapes rest').map fun s => Char.ofNat (16 * x + y) :: s
          else none
        | _, _ => none
      | _ => none
    else (decodeEscapes rest).map fun s => c :: s

/-- Go `unescape(s, mode)` of `net/url`. -/
def unescape (s : List Char) (mode : encoding) : Option (List Char) :=
  if escapesOK mode s then decodeEscapes s else none

/-- An upper-case hexadecimal digit. -/
def upperhex (n : Nat) : Char := "0123456789ABCDEF".data.getD n '0'

/-- Go `escape(s, mode)` of `net/url` outside query components: every byte
that `shouldEscape` is written as `%XY`. -/
def escape (s : List Char) (mode : encoding) : List Char :=
  s.flatMap fun c =>
    if c.toNat < 0x80 then
      if shouldEscape c mode then ['%', upperhex (c.toNat / 16), upperhex (c.toNat % 16)]
      else [c]
    else
      (String.utf8EncodeChar c).flatMap fun b =>
        ['%', upperhex (b.toNat / 16), upperhex (b.toNat % 16)]

/-- The text before and after the last occurrence of `sep`
(`strings.LastIndex`), if there is one. -/
def cutLast (sep : Char) : List Char → Option (List Char × List Char)
  | [] => none
  | x :: xs =>
    match cutLast sep xs with
    | some (before, after) => some (x :: before, after)
    | none => if x = sep then some ([], xs) else none

/-- Go `validOptionalPort` of `net/url`: empty, or a colon followed by digits. -/
def validOptionalPort (port : List Char) : Bool :=
  match port with
  | [] => true
  | c :: digits => c == ':' && digits.all isDigit

/-- Whether `parseHost` of `net/url` accepts the text as a host with an
optional port.  Hosts that start with a bracket are left out (`false`). -/
def parseHost (host : List Char) : Bool :=
  if host.head? = some '[' then false
  else
    (match cutLast ':' host with
      | some (_, digits) => validOptionalPort (':' :: digits)
      | none => true)
    && escapesOK .encodeHost host

/-- Go `validUserinfo` of `net/url`. -/
def validUserinfo (s : List Char) : Bool :=
  s.all fun c =>
    isAlnum c ||
    decide (c ∈ ['-', '.', '_', ':', '~', '!', '$', '&', '\'', '(', ')', '*', '+', ',', ';',
      '=', '%', '@'])

/-- Whether `parseAuthority` of `net/url` accepts the text: the host follows
the last `@`, and what precedes it is the user information. -/
def parseAuthority (authority : List Char) : Bool :=
  match cutLast '@' authority with
  | none => parseHost authority
  | some (userinfo, host) =>
    parseHost host && validUserinfo userinfo &&
      (if ':' ∈ userinfo then
        escapesOK .encodeUserPassword (userinfo.takeWhile fun c => c ≠ ':') &&
        escapesOK .encodeUserPassword ((userinfo.dropWhile fun c => c ≠ ':').drop 1)
      else escapesOK .encodeUserPassword userinfo)

/-- The scan of `getScheme` of `net/url` at position `i`: the scheme and the
text after its colon, or `none` for "missing protocol scheme". -/
def getSchemeFrom (rawURL : List Char) : Nat → List Char → Option (List Char × List Char)
  | _, [] => some ([], rawURL)
  | i, c :: cs =>
    if ('a' ≤ c ∧ c ≤ 'z') ∨ ('A' ≤ c ∧ c ≤ 'Z') then getSchemeFrom rawURL (i + 1) cs
    else if isDigit c ∨ c = '+' ∨ c = '-' ∨ c = '.' then
      if i = 0 then some ([], rawURL) else getSchemeFrom rawURL (i + 1) cs
    else if c = ':' then
      if i = 0 then none else some (rawURL.take i, cs)
    else some ([], rawURL)

/-- Go `getScheme` of `net/url`. -/
def getScheme (rawURL : List Char) : Option (List Char × List Char) :=
  getSchemeFrom rawURL 0 rawURL

/-- The two fields of Go's `url.URL` that the file route reads. -/
structure URL where
  Path : List Char
  RawPath : List Char
  deriving DecidableEq, Repr

/-- Go `(*URL).setPath`: `Path` is the decoded text, and `RawPath` keeps the
text as written when that differs from the default encoding of `Path`. -/
def setPath (p : List Char) : Option URL :=
  match unescape p .encodePath with
  | none => none
  | some path =>
    if p = escape path .encodePath then some { Path := path, RawPath := [] }
    else some { Path := path, RawPath := p }

/-- Go `parse(rawURL, false)` of `net/url`, on the text before the fragment. -/
def parse (rawURL : List Char) : Option URL :=
  if rawURL.any isCTL then none
  else if rawURL = ['*'] then some { Path := ['*'], RawPath := [] }
  else
    match getScheme rawURL with
    | none => none
    | some (scheme, rest) =>
      let rest := rest.takeWhile fun c => c ≠ '?'
      if rest.head? ≠ some '/' then
        if scheme ≠ [] then some { Path := [], RawPath := [] }
        else if ':' ∈ rest.takeWhile (fun c => c ≠ '/') then none
        else setPath rest
      else if (scheme ≠ [] ∨ ¬ "///".data.isPrefixOf rest) ∧ "//".data.isPrefixOf rest then
        let authority := (rest.drop 2).takeWhile fun c => c ≠ '/'
        let rest := (rest.drop 2).dropWhile fun c => c ≠ '/'
        if parseAuthority authority then setPath rest else none
      else setPath rest

/-- Go `url.Parse`: the fragment is cut off at the first `#` and must have
well-formed escapes; the rest goes through `parse`. -/
def urlParse (rawURL : List Char) : Option URL :=
  let u := rawURL.takeWhile fun c => c ≠ '#'
  let frag := (rawURL.dropWhile fun c => c ≠ '#').drop 1
  match parse u with
  | none => none
  | some url =>
    if frag = [] then some url
    else if escapesOK .encodeFragment frag then some url
    else none

/-- The elements of a slash-separated path. -/
def splitSlash : List Char → List (List Char)
  | [] => [[]]
  | c :: cs =>
    if c = '/' then [] :: splitSlash cs
    else
      match splitSlash cs with
      | x :: xs => (c :: x) :: xs
      | [] => [[c]]

/-- The elements `path.Clean` keeps, given the elements still to read and those
kept so far (last kept first): empty and `.` elements are dropped, `..` removes
the element kept before it, is dropped at the root of a rooted path and is kept
at the start of a relative one. -/
def cleanElems (rooted : Bool) : List (List Char) → List (List Char) → List (List Char)
  | [], kept => kept.reverse
  | e :: es, kept =>
    if e = [] ∨ e = ['.'] then cleanElems rooted es kept
    else if e = ['.', '.'] then
      match kept with
      | top :: kept' =>
        if top = ['.', '.'] then cleanElems rooted es (e :: kept)
        else cleanElems rooted es kept'
      | [] => if rooted then cleanElems rooted es [] else cleanElems rooted es [e]
    else cleanElems rooted es (e :: kept)

/-- Go `path.Clean`. -/
def pathClean (p : List Char) : List Char :=
  let rooted := p.head? = some '/'
  let body := ['/'].intercalate (cleanElems rooted (splitSlash p) [])
  if rooted then '/' :: body else if body = [] then ['.'] else body

/-- Go `filepath.Join` of two elements, with `/` as the separator. -/
def filepathJoin (a b : List Char) : List Char :=
  if a = [] then (if b = [] then [] else pathClean b)
  else if b = [] then pathClean a
  else pathClean (a ++ '/' :: b)

/-- The name of the file `http.Dir(root).Open(name)` opens; a name with a NUL
character is refused. -/
def dirOpen (root name : List Char) : Option (List Char) :=
  let path := (pathClean ('/' :: name)).drop 1
  let path := if path = [] then ['.'] else path
  if Char.ofNat 0 ∈ path then none
  else
    let dir := if root = [] then ['.'] else root
    some (filepathJoin dir path)

/-- Go `strings.TrimPrefix`. -/
def trimPrefix (s pfx : List Char) : List Char :=
  if pfx.isPrefixOf s then s.drop pfx.length else s

/-- The file a handler opens for a request with the given URL, if it opens
one.  `StripPrefix` answers 404 unless the prefix can be taken off `Path` and,
when `RawPath` is set, off `RawPath` as well; the file server prepends a
missing `/`, redirects paths ending in `/index.html`, and opens the cleaned
path inside its root. -/
def servedFile : Handler → URL → Option (List Char)
  | .StripPrefix pfx h, url =>
    if pfx = "" then servedFile h url
    else
      let p := trimPrefix url.Path pfx.data
      let rp := trimPrefix url.RawPath pfx.data
      if p.length < url.Path.length ∧ (url.RawPath = [] ∨ rp.length < url.RawPath.length) then
        servedFile h { Path := p, RawPath := rp }
      else none
  | .FileServer root, url =>
    let upath := if url.Path.head? = some '/' then url.Path else '/' :: url.Path
    if "/index.html".data.isSuffixOf upath then none
    else dirOpen root.data (pathClean upath)
  | .indexHandler, _ => none
  | .analyzeHandler, _ => none

/-- A host name with an optional port, as in `localhost:8080`: ASCII letters,
digits, `-` and `.`, optionally followed by a colon and decimal digits. -/
def IsHostPort (a : List Char) : Prop :=
  ∃ host digits, (a = host ∨ a = host ++ ':' :: digits) ∧
    (∀ c ∈ host, isAlnum c = true ∨ c = '-' ∨ c = '.') ∧ ∀ c ∈ digits, isDigit c = true

/-- A character that may stand in the host field of the remote response for
the link to resolve: not `/`, `\`, `?`, `#`, `%`, and not an ASCII control
character. -/
def plainInPath (c : Char) : Bool :=
  !(c == '/' || c == '\\' || c == '?' || c == '#' || c == '%' || isCTL c)

/-! ## Sample surroundings -/

/-- An endpoint as the remote service reports it for a finished assessment. -/
def sampleEndpoint : Endpoint :=
  { IPAddress := "93.184.216.34", ServerName := "", StatusMessage := "Ready", Grade := "A",
    GradeTrustIgnored := "A", HasWarnings := false, IsExceptional := false }

/-- A finished assessment of `example.com`. -/
def sampleReady : Response :=
  { Host := "example.com", Port := 443, Protocol := "http", IsPublic := false,
    Status := "READY", StartTime := 1700000000000, TestTime := 1700000060000,
    EngineVersion := "2.2.0", CriteriaVersion := "2009q", Endpoints := [sampleEndpoint] }

/-- Surroundings in which every call succeeds and the remote service answers
every analyze request with `answer`. -/
def envWith (answer : Response) : Env :=
  { getenv := fun _ => "",
    httpGet := fun _ => .ok "body",
    decodeInfo := fun _ =>
      .ok { EngineVersion := "2.2.0", CriteriaVersion := "2009q", ClientMaxAssessments := 25,
            Messages := [] },
    decodeResponse := fun _ => (answer, none),
    now := "2024-01-01 00:00:00",
    outputFileAndClose := fun _ _ => none,
    parseFiles := fun _ => none,
    listenAndServe := fun _ => none }

/-- An assessment the remote service is still working on. -/
def sampleInProgress : Response :=
  { Response.zero with
    Host := "example.com", Port := 443, Protocol := "http",
    Status := "IN_PROGRESS", StartTime := 1700000000000 }

/-- An assessment reported as finished that lists no endpoint. -/
def sampleReadyEmpty : Response :=
  { Response.zero with
    Host := "example.com", Port := 443, Protocol := "http",
    Status := "READY", StartTime := 1700000000000, TestTime := 1700000060000 }

/-- The body of a failed assessment, with its top-level status message. -/
def errorBody : String :=
  "\x7b\"host\":\"nonexistent.invalid\",\"port\":443,\"protocol\":\"http\"," ++
  "\"isPublic\":false,\"status\":\"ERROR\"," ++
  "\"statusMessage\":\"Unable to resolve domain name\"\x7d"

/-- What `errorBody` decodes to: `Response` has no field for the top-level
status message, and the decoder skips keys without a field. -/
def sampleError : Response :=
  { Response.zero with
    Host := "nonexistent.invalid", Port := 443, Protocol := "http", Status := "ERROR" }

/-- Surroundings in which the remote service answers with `errorBody`. -/
def envError : Env :=
  { envWith sampleError with
    httpGet := fun _ => .ok errorBody,
    decodeResponse := fun body =>
      if body = errorBody then (sampleError, none)
      else (Response.zero, some "unexpected end of JSON input") }

/-- Surroundings in which the info request is refused. -/
def envDown : Env :=
  { envWith sampleReady with
    httpGet := fun _ => .error "dial tcp: connect: connection refused" }

/-- An assessment whose host field holds a question mark. -/
def sampleQuery : Response := { sampleReady with Host := "a?b" }

/-- A form submission of `host` to the server reached as `localhost:8080`. -/
def postOf (host : String) : Request :=
  { Method := "POST", Host := "localhost:8080",
    FormValue := fun key => if key = "host" then host else "" }

end SSLConfiguration

namespace SSLConfiguration

theorem rows_endpointOps (ep : Endpoint) (rest : List PdfOp) :
    rows (endpointOps ep ++ rest) =
      [ep.IPAddress, ep.ServerName, ep.StatusMessage, ep.Grade, ep.GradeTrustIgnored,
        sprintfBool ep.HasWarnings, sprintfBool ep.IsExceptional] :: rows rest := by
  simp [endpointOps, rows, PdfOp.text]

theorem rows_flatMap_endpointOps (eps : List Endpoint) :
    rows (eps.flatMap endpointOps) = eps.map fun ep =>
      [ep.IPAddress, ep.ServerName, ep.StatusMessage, ep.Grade, ep.GradeTrustIgnored,
        sprintfBool ep.HasWarnings, sprintfBool ep.IsExceptional] := by
  induction eps with
  | nil => simp [rows]
  | cons ep eps ih => simp [List.flatMap_cons, rows_endpointOps, ih]

theorem rows_pdfOps (now : String) (response : Response) :
    rows (pdfOps now response) =
      [["SSL Labs API Response"], ["Host: " ++ response.Host], ["Timestamp: " ++ now], header]
        ++ response.Endpoints.map fun ep =>
          [ep.IPAddress, ep.ServerName, ep.StatusMessage, ep.Grade, ep.GradeTrustIgnored,
            sprintfBool ep.HasWarnings, sprintfBool ep.IsExceptional] := by
  simp [pdfOps, headerOps, header, List.enum, List.enumFrom, rows, PdfOp.text,
    rows_flatMap_endpointOps]

theorem layout_flatMap_endpointOps (eps : List Endpoint) :
    layout (eps.flatMap endpointOps) = eps.flatMap fun ep =>
      [ Item.cell 40 ep.IPAddress false, Item.cell 35 ep.ServerName false,
        Item.cell 40 ep.StatusMessage false, Item.cell 15 ep.Grade false,
        Item.cell 20 ep.GradeTrustIgnored false,
        Item.cell 20 (sprintfBool ep.HasWarnings) false,
        Item.cell 20 (sprintfBool ep.IsExceptional) false, Item.br (-1) ] := by
  induction eps with
  | nil => simp [layout]
  | cons ep eps ih =>
    simp only [layout] at ih
    simp [List.flatMap_cons, layout, List.filterMap_append, ih, endpointOps, PdfOp.item, wAt, w]

theorem layout_pdfOps (now : String) (response : Response) :
    layout (pdfOps now response) =
      [ Item.cell 0 "SSL Labs API Response" false, Item.br 20,
        Item.cell 0 ("Host: " ++ response.Host) false, Item.br 12,
        Item.cell 0 ("Timestamp: " ++ now) false, Item.br 15,
        Item.cell 40 "IP Address" true, Item.cell 35 "Server Name" true,
        Item.cell 40 "Status Message" true, Item.cell 15 "Grade" true,
        Item.cell 20 "Grade Trust Ignored" true, Item.cell 20 "Has Warnings" true,
        Item.cell 20 "Is Exceptional" true, Item.br (-1) ]
      ++ response.Endpoints.flatMap fun ep =>
        [ Item.cell 40 ep.IPAddress false, Item.cell 35 ep.ServerName false,
          Item.cell 40 ep.StatusMessage false, Item.cell 15 ep.Grade false,
          Item.cell 20 ep.GradeTrustIgnored false,
          Item.cell 20 (sprintfBool ep.HasWarnings) false,
          Item.cell 20 (sprintfBool ep.IsExceptional) false, Item.br (-1) ] := by
  have h := layout_flatMap_endpointOps response.Endpoints
  simp only [layout] at h
  simp [pdfOps, headerOps, header, List.enum, List.enumFrom, layout, List.filterMap_append, h,
    PdfOp.item, wAt, w]

theorem generatePDF_trace (env : Env) (response : Response) :
    (generatePDF env response).2 =
      [Event.outputFile (filesBaseURL ++ "ssl_report_" ++ response.Host ++ ".pdf")
        (pdfOps env.now response)] := by
  simp only [generatePDF]
  cases env.outputFileAndClose (filesBaseURL ++ "ssl_report_" ++ response.Host ++ ".pdf")
    (pdfOps env.now response) <;> rfl

theorem generatePDF_ret (env : Env) (response : Response) :
    (generatePDF env response).1 =
      match env.outputFileAndClose (filesBaseURL ++ "ssl_report_" ++ response.Host ++ ".pdf")
          (pdfOps env.now response) with
      | some err => ("", some ("error generating PDF: " ++ err))
      | none => (filesBaseURL ++ "ssl_report_" ++ response.Host ++ ".pdf", none) := by
  simp only [generatePDF]
  cases env.outputFileAndClose (filesBaseURL ++ "ssl_report_" ++ response.Host ++ ".pdf")
    (pdfOps env.now response) <;> rfl

theorem sprintfBool_eq (b : Bool) : sprintfBool b = if b then "true" else "false" := rfl

theorem filename_eq (host : String) :
    filesBaseURL ++ "ssl_report_" ++ host ++ ".pdf" = "files/ssl_report_" ++ host ++ ".pdf" := by
  apply String.ext
  simp [filesBaseURL]

/-- C3: the rows `generatePDF` prints after the header row are exactly one row
per endpoint, in the order of the assessment's endpoint list, each made of the
seven texts ipAddress, serverName, statusMessage, grade, gradeTrustIgnored,
hasWarnings, isExceptional in that order, the two booleans printed as the
literal text `true` or `false`. -/
theorem generatePDF_rows_follow_endpoints (env : Env) (response : Response) :
    ∃ filename doc, (generatePDF env response).2 = [Event.outputFile filename doc] ∧
      rows doc =
        [["SSL Labs API Response"], ["Host: " ++ response.Host], ["Timestamp: " ++ env.now],
          ["IP Address", "Server Name", "Status Message", "Grade", "Grade Trust Ignored",
            "Has Warnings", "Is Exceptional"]]
        ++ response.Endpoints.map fun ep =>
          [ep.IPAddress, ep.ServerName, ep.StatusMessage, ep.Grade, ep.GradeTrustIgnored,
            if ep.HasWarnings then "true" else "false",
            if ep.IsExceptional then "true" else "false"] :=
  ⟨_, _, generatePDF_trace env response, by
    simp [rows_pdfOps, header, sprintfBool_eq]⟩

/-- C5: before the data rows `generatePDF` prints the title cell, a line break,
the cell "Host: " followed by the host, a line break, the timestamp cell, a
line break, and then seven shaded header cells with the texts IP Address,
Server Name, Status Message, Grade, Grade Trust Ignored, Has Warnings,
Is Exceptional and the widths 40, 35, 40, 15, 20, 20, 20 (the header row is
closed by a line break, like every data row); every data cell has the width of
its column's header cell and is not shaded. -/
theorem generatePDF_layout (env : Env) (response : Response) :
    ∃ filename doc, (generatePDF env response).2 = [Event.outputFile filename doc] ∧
      layout doc =
        [ Item.cell 0 "SSL Labs API Response" false, Item.br 20,
          Item.cell 0 ("Host: " ++ response.Host) false, Item.br 12,
          Item.cell 0 ("Timestamp: " ++ env.now) false, Item.br 15,
          Item.cell 40 "IP Address" true, Item.cell 35 "Server Name" true,
          Item.cell 40 "Status Message" true, Item.cell 15 "Grade" true,
          Item.cell 20 "Grade Trust Ignored" true, Item.cell 20 "Has Warnings" true,
          Item.cell 20 "Is Exceptional" true, Item.br (-1) ]
        ++ response.Endpoints.flatMap fun ep =>
          [ Item.cell 40 ep.IPAddress false, Item.cell 35 ep.ServerName false,
            Item.cell 40 ep.StatusMessage false, Item.cell 15 ep.Grade false,
            Item.cell 20 ep.GradeTrustIgnored false,
            Item.cell 20 (if ep.HasWarnings then "true" else "false") false,
            Item.cell 20 (if ep.IsExceptional then "true" else "false") false,
            Item.br (-1) ] :=
  ⟨_, _, generatePDF_trace env response, by
    simp [layout_pdfOps, sprintfBool_eq]⟩

/-- C9: when `generatePDF` succeeds the identifier it returns is exactly
"files/ssl_report_" followed by the assessment's host followed by ".pdf"; two
successful renderings of assessments with equal hosts return the same
identifier, whatever their endpoints, status, clock reading or surroundings. -/
theorem generatePDF_identifier (env₁ env₂ : Env) (r₁ r₂ : Response)
    (h₁ : (generatePDF env₁ r₁).1.2 = none) (h₂ : (generatePDF env₂ r₂).1.2 = none)
    (hhost : r₁.Host = r₂.Host) :
    (generatePDF env₁ r₁).1.1 = "files/ssl_report_" ++ r₁.Host ++ ".pdf" ∧
      (generatePDF env₁ r₁).1.1 = (generatePDF env₂ r₂).1.1 := by
  have key : ∀ (env : Env) (r : Response), (generatePDF env r).1.2 = none →
      (generatePDF env r).1.1 = "files/ssl_report_" ++ r.Host ++ ".pdf" := by
    intro env r h
    rw [generatePDF_ret] at h ⊢
    split at h
    · simp at h
    · simp_all [filename_eq]
  exact ⟨key env₁ r₁ h₁, by rw [key env₁ r₁ h₁, key env₂ r₂ h₂, hhost]⟩

/-! ## `fetchSSLData` -/

theorem fetchSSLData_get_error (env : Env) (host err : String)
    (h : env.httpGet (sslLabsAPIBaseURL ++ "?host=" ++ host) = .error err) :
    fetchSSLData env host =
      ((Response.zero, some err),
        [ Event.httpGet (sslLabsAPIBaseURL ++ "?host=" ++ host),
          Event.logPrint ("Error executing request to SSL Labs API: " ++ err ++ "\n") ]) := by
  simp [fetchSSLData, h]

theorem fetchSSLData_decode_error (env : Env) (host body err : String) (resp : Response)
    (h : env.httpGet (sslLabsAPIBaseURL ++ "?host=" ++ host) = .ok body)
    (hd : env.decodeResponse body = (resp, some err)) :
    fetchSSLData env host =
      ((resp, some err),
        [ Event.httpGet (sslLabsAPIBaseURL ++ "?host=" ++ host),
          Event.logPrint ("Error decoding response from SSL Labs API: " ++ err ++ "\n") ]) := by
  simp [fetchSSLData, h, hd]

theorem fetchSSLData_ok (env : Env) (host body : String) (resp : Response)
    (h : env.httpGet (sslLabsAPIBaseURL ++ "?host=" ++ host) = .ok body)
    (hd : env.decodeResponse body = (resp, none)) :
    fetchSSLData env host =
      ((resp, none), [Event.httpGet (sslLabsAPIBaseURL ++ "?host=" ++ host)]) := by
  simp [fetchSSLData, h, hd]

/-- The three ways `fetchSSLData` ends. -/
theorem fetchSSLData_cases (env : Env) (host : String) :
    (∃ err, env.httpGet (sslLabsAPIBaseURL ++ "?host=" ++ host) = .error err ∧
      fetchSSLData env host =
        ((Response.zero, some err),
          [ Event.httpGet (sslLabsAPIBaseURL ++ "?host=" ++ host),
            Event.logPrint ("Error executing request to SSL Labs API: " ++ err ++ "\n") ])) ∨
    (∃ body resp err, env.httpGet (sslLabsAPIBaseURL ++ "?host=" ++ host) = .ok body ∧
      env.decodeResponse body = (resp, some err) ∧
      fetchSSLData env host =
        ((resp, some err),
          [ Event.httpGet (sslLabsAPIBaseURL ++ "?host=" ++ host),
            Event.logPrint ("Error decoding response from SSL Labs API: " ++ err ++ "\n") ])) ∨
    (∃ body resp, env.httpGet (sslLabsAPIBaseURL ++ "?host=" ++ host) = .ok body ∧
      env.decodeResponse body = (resp, none) ∧
      fetchSSLData env host =
        ((resp, none), [Event.httpGet (sslLabsAPIBaseURL ++ "?host=" ++ host)])) := by
  rcases h : env.httpGet (sslLabsAPIBaseURL ++ "?host=" ++ host) with err | body
  · exact Or.inl ⟨err, rfl, fetchSSLData_get_error env host err h⟩
  · rcases hd : env.decodeResponse body with ⟨resp, _ | err⟩
    · exact Or.inr (Or.inr ⟨body, resp, rfl, hd, fetchSSLData_ok env host body resp h hd⟩)
    · exact Or.inr (Or.inl ⟨body, resp, err, rfl, hd,
        fetchSSLData_decode_error env host body err resp h hd⟩)

/-! ## `generatePDF` and `analyzeHandler`, case by case -/

/-- The two ways `generatePDF` ends. -/
theorem generatePDF_cases (env : Env) (response : Response) :
    (∃ err, env.outputFileAndClose (filesBaseURL ++ "ssl_report_" ++ response.Host ++ ".pdf")
        (pdfOps env.now response) = some err ∧
      generatePDF env response =
        (("", some ("error generating PDF: " ++ err)),
          [Event.outputFile (filesBaseURL ++ "ssl_report_" ++ response.Host ++ ".pdf")
            (pdfOps env.now response)])) ∨
    (env.outputFileAndClose (filesBaseURL ++ "ssl_report_" ++ response.Host ++ ".pdf")
        (pdfOps env.now response) = none ∧
      generatePDF env response =
        ((filesBaseURL ++ "ssl_report_" ++ response.Host ++ ".pdf", none),
          [Event.outputFile (filesBaseURL ++ "ssl_report_" ++ response.Host ++ ".pdf")
            (pdfOps env.now response)])) := by
  simp only [generatePDF]
  cases h : env.outputFileAndClose (filesBaseURL ++ "ssl_report_" ++ response.Host ++ ".pdf")
    (pdfOps env.now response) <;> simp

theorem analyzeHandler_not_post (env : Env) (r : Request) (hm : r.Method ≠ "POST") :
    analyzeHandler env r = (Reply.redirect "/" 303, []) := by
  simp [analyzeHandler, hm]

theorem analyzeHandler_empty_host (env : Env) (r : Request) (hm : r.Method = "POST")
    (hh : r.FormValue "host" = "") :
    analyzeHandler env r = (Reply.error "Host is required" 400, []) := by
  simp [analyzeHandler, hm, hh]

theorem analyzeHandler_fetch_error (env : Env) (r : Request) (resp : Response) (err : String)
    (t : List Event) (hm : r.Method = "POST") (hh : r.FormValue "host" ≠ "")
    (hf : fetchSSLData env (r.FormValue "host") = ((resp, some err), t)) :
    analyzeHandler env r =
      (Reply.error "Failed to fetch SSL data" 500,
        [Event.fetchSSLDataCalled (r.FormValue "host")] ++ t
          ++ [Event.logPrint
                ("Failed to fetch SSL data for " ++ r.FormValue "host" ++ ": " ++ err)]) := by
  simp [analyzeHandler, hm, hh, hf]

theorem analyzeHandler_pdf_error (env : Env) (r : Request) (resp : Response)
    (name err : String) (t₁ t₂ : List Event) (hm : r.Method = "POST")
    (hh : r.FormValue "host" ≠ "")
    (hf : fetchSSLData env (r.FormValue "host") = ((resp, none), t₁))
    (hg : generatePDF env resp = ((name, some err), t₂)) :
    analyzeHandler env r =
      (Reply.error "Failed to generate PDF" 500,
        [Event.fetchSSLDataCalled (r.FormValue "host")] ++ t₁
          ++ [Event.generatePDFCalled resp] ++ t₂
          ++ [Event.logPrint
                ("Failed to generate PDF for " ++ r.FormValue "host" ++ ": " ++ err)]) := by
  simp [analyzeHandler, hm, hh, hf, hg]

theorem analyzeHandler_pdf_ok (env : Env) (r : Request) (resp : Response)
    (name : String) (t₁ t₂ : List Event) (hm : r.Method = "POST")
    (hh : r.FormValue "host" ≠ "")
    (hf : fetchSSLData env (r.FormValue "host") = ((resp, none), t₁))
    (hg : generatePDF env resp = ((name, none), t₂)) :
    analyzeHandler env r =
      (match env.parseFiles "index.html" with
        | some err => Reply.panicked err
        | none =>
          Reply.executeTemplate "application/json" "result"
            { Result := "http://" ++ r.Host ++ "/" ++ name, Completed := true, Error := "",
              Name := name },
        [Event.fetchSSLDataCalled (r.FormValue "host")] ++ t₁
          ++ [Event.generatePDFCalled resp] ++ t₂) := by
  simp only [analyzeHandler, hm, hh, hf, hg]
  cases env.parseFiles "index.html" <;> simp

/-! ## The assessment request -/

/-- C1, as stated, fails: for the non-empty host `example.com`, a remote answer
with status IN_PROGRESS is returned without error, and so is an answer with
status READY and no endpoint. -/
theorem fetchSSLData_returns_unfinished :
    "example.com" ≠ "" ∧
    (fetchSSLData (envWith sampleInProgress) "example.com").1.2 = none ∧
    (fetchSSLData (envWith sampleInProgress) "example.com").1.1.Status = "IN_PROGRESS" ∧
    (fetchSSLData (envWith sampleReadyEmpty) "example.com").1.2 = none ∧
    (fetchSSLData (envWith sampleReadyEmpty) "example.com").1.1.Status = "READY" ∧
    (fetchSSLData (envWith sampleReadyEmpty) "example.com").1.1.Endpoints = [] := by
  decide

/-- C1, amended: `fetchSSLData` issues exactly one request, to the analyze URL
of the host.  It returns an error when that request fails or its body does not
decode; otherwise it returns, without error, exactly the assessment the body
decodes to, whatever its status and its endpoint list. -/
theorem fetchSSLData_single_answer (env : Env) (host : String) :
    (∃ rest, (fetchSSLData env host).2 =
        Event.httpGet (sslLabsAPIBaseURL ++ "?host=" ++ host) :: rest ∧
      ∀ url, Event.httpGet url ∉ rest) ∧
    (∀ err, env.httpGet (sslLabsAPIBaseURL ++ "?host=" ++ host) = .error err →
      (fetchSSLData env host).1 = (Response.zero, some err)) ∧
    (∀ body, env.httpGet (sslLabsAPIBaseURL ++ "?host=" ++ host) = .ok body →
      (fetchSSLData env host).1 = env.decodeResponse body) ∧
    ((fetchSSLData env host).1.2 = none →
      ∃ body, env.httpGet (sslLabsAPIBaseURL ++ "?host=" ++ host) = .ok body ∧
        env.decodeResponse body = ((fetchSSLData env host).1.1, none)) := by
  rcases fetchSSLData_cases env host with ⟨err, hg, hf⟩ | ⟨body, resp, err, hg, hd, hf⟩ |
    ⟨body, resp, hg, hd, hf⟩
  · simp [hf, hg]
  · simp [hf, hg, hd]
  · simp [hf, hg, hd]

/-- C2, as stated, fails: when the remote service answers `errorBody` (status
ERROR with a status message), `fetchSSLData` returns no failure, and
`analyzeHandler` calls `generatePDF`, writes the report file and links it. -/
theorem error_status_is_rendered :
    sampleError.Status = "ERROR" ∧
    (fetchSSLData envError "nonexistent.invalid").1 = (sampleError, none) ∧
    analyzeHandler envError (postOf "nonexistent.invalid") =
      (Reply.executeTemplate "application/json" "result"
          { Result := "http://localhost:8080/files/ssl_report_nonexistent.invalid.pdf",
            Completed := true, Error := "", Name := "files/ssl_report_nonexistent.invalid.pdf" },
        [ Event.fetchSSLDataCalled "nonexistent.invalid",
          Event.httpGet "https://api.ssllabs.com/api/v3/analyze?host=nonexistent.invalid",
          Event.generatePDFCalled sampleError,
          Event.outputFile "files/ssl_report_nonexistent.invalid.pdf"
            (pdfOps "2024-01-01 00:00:00" sampleError) ]) :=
  ⟨by decide, by decide, rfl⟩

/-- C2, amended: if the remote service answers with a body that decodes to an
assessment with status ERROR, `fetchSSLData` returns that assessment with no
error, and `analyzeHandler` (for a POST with a non-empty host) calls
`generatePDF` on it and hands the report to `OutputFileAndClose`; when the
write and the template parse succeed, the reply links the report. -/
theorem error_status_reaches_renderer (env : Env) (r : Request) (body : String)
    (resp : Response) (hm : r.Method = "POST") (hh : r.FormValue "host" ≠ "")
    (hget : env.httpGet (sslLabsAPIBaseURL ++ "?host=" ++ r.FormValue "host") = .ok body)
    (hdec : env.decodeResponse body = (resp, none)) (hstatus : resp.Status = "ERROR") :
    (fetchSSLData env (r.FormValue "host")).1 = (resp, none) ∧
    (fetchSSLData env (r.FormValue "host")).1.1.Status = "ERROR" ∧
    Event.generatePDFCalled resp ∈ (analyzeHandler env r).2 ∧
    Event.outputFile ("files/ssl_report_" ++ resp.Host ++ ".pdf") (pdfOps env.now resp)
      ∈ (analyzeHandler env r).2 ∧
    (env.outputFileAndClose ("files/ssl_report_" ++ resp.Host ++ ".pdf") (pdfOps env.now resp)
        = none →
      env.parseFiles "index.html" = none →
      (analyzeHandler env r).1 =
        Reply.executeTemplate "application/json" "result"
          { Result := "http://" ++ r.Host ++ "/" ++ ("files/ssl_report_" ++ resp.Host ++ ".pdf"),
            Completed := true, Error := "",
            Name := "files/ssl_report_" ++ resp.Host ++ ".pdf" }) := by
  have hf := fetchSSLData_ok env (r.FormValue "host") body resp hget hdec
  rw [← filename_eq]
  rcases generatePDF_cases env resp with ⟨err, ho, hgen⟩ | ⟨ho, hgen⟩
  · rw [analyzeHandler_pdf_error env r resp _ _ _ _ hm hh hf hgen]
    simp [hf, ho, hstatus]
  · rw [analyzeHandler_pdf_ok env r resp _ _ _ hm hh hf hgen]
    refine ⟨by simp [hf], by simp [hf, hstatus], by simp, by simp, ?_⟩
    intro _ hp
    simp [hp]

theorem error_status_reaches_renderer_witness :
    sampleError.Status = "ERROR" ∧
    (fetchSSLData envError "nonexistent.invalid").1 = (sampleError, none) ∧
    Event.generatePDFCalled sampleError
      ∈ (analyzeHandler envError (postOf "nonexistent.invalid")).2 :=
  have h := error_status_reaches_renderer envError (postOf "nonexistent.invalid") errorBody
    sampleError rfl (by decide) rfl (by decide) rfl
  ⟨rfl, h.1, h.2.2.1⟩

/-! ## The renderer on an empty endpoint list -/

/-- C4, as stated, fails: for the assessment `sampleReadyEmpty`, whose endpoint
list is empty, `generatePDF` returns the identifier with no error and writes a
document with the title, host, timestamp and header rows and no data row. -/
theorem generatePDF_renders_empty_list :
    sampleReadyEmpty.Endpoints = [] ∧
    generatePDF (envWith sampleReadyEmpty) sampleReadyEmpty =
      (("files/ssl_report_example.com.pdf", none),
        [Event.outputFile "files/ssl_report_example.com.pdf"
          (pdfOps "2024-01-01 00:00:00" sampleReadyEmpty)]) ∧
    rows (pdfOps "2024-01-01 00:00:00" sampleReadyEmpty) =
      [["SSL Labs API Response"], ["Host: example.com"], ["Timestamp: 2024-01-01 00:00:00"],
        ["IP Address", "Server Name", "Status Message", "Grade", "Grade Trust Ignored",
          "Has Warnings", "Is Exceptional"]] :=
  ⟨rfl, rfl, by decide⟩

/-- C4, amended: for an assessment whose endpoint list is empty `generatePDF`
does not refuse.  It builds the document with the title, host, timestamp and
header rows and no data row and hands it to `OutputFileAndClose` under the
host's file name; it returns that name without error when the write succeeds,
and returns an error only when the write itself fails. -/
theorem generatePDF_empty_endpoints (env : Env) (response : Response)
    (hempty : response.Endpoints = []) :
    ∃ doc, (generatePDF env response).2 =
        [Event.outputFile ("files/ssl_report_" ++ response.Host ++ ".pdf") doc] ∧
      rows doc =
        [["SSL Labs API Response"], ["Host: " ++ response.Host], ["Timestamp: " ++ env.now],
          ["IP Address", "Server Name", "Status Message", "Grade", "Grade Trust Ignored",
            "Has Warnings", "Is Exceptional"]] ∧
      (env.outputFileAndClose ("files/ssl_report_" ++ response.Host ++ ".pdf") doc = none →
        (generatePDF env response).1 = ("files/ssl_report_" ++ response.Host ++ ".pdf", none)) ∧
      (∀ err, env.outputFileAndClose ("files/ssl_report_" ++ response.Host ++ ".pdf") doc
          = some err →
        (generatePDF env response).1 = ("", some ("error generating PDF: " ++ err))) := by
  refine ⟨pdfOps env.now response, ?_, ?_, ?_, ?_⟩
  · rw [generatePDF_trace, filename_eq]
  · simp [rows_pdfOps, hempty, header]
  · intro h
    rw [generatePDF_ret, filename_eq, h]
  · intro err h
    rw [generatePDF_ret, filename_eq, h]

theorem generatePDF_empty_endpoints_witness :
    sampleReadyEmpty.Endpoints = [] ∧
    ∃ doc, (generatePDF (envWith sampleReadyEmpty) sampleReadyEmpty).2 =
        [Event.outputFile ("files/ssl_report_" ++ sampleReadyEmpty.Host ++ ".pdf") doc] ∧
      rows doc =
        [["SSL Labs API Response"], ["Host: " ++ sampleReadyEmpty.Host],
          ["Timestamp: " ++ (envWith sampleReadyEmpty).now],
          ["IP Address", "Server Name", "Status Message", "Grade", "Grade Trust Ignored",
            "Has Warnings", "Is Exceptional"]] ∧
      ((envWith sampleReadyEmpty).outputFileAndClose
          ("files/ssl_report_" ++ sampleReadyEmpty.Host ++ ".pdf") doc = none →
        (generatePDF (envWith sampleReadyEmpty) sampleReadyEmpty).1 =
          ("files/ssl_report_" ++ sampleReadyEmpty.Host ++ ".pdf", none)) ∧
      (∀ err, (envWith sampleReadyEmpty).outputFileAndClose
          ("files/ssl_report_" ++ sampleReadyEmpty.Host ++ ".pdf") doc = some err →
        (generatePDF (envWith sampleReadyEmpty) sampleReadyEmpty).1 =
          ("", some ("error generating PDF: " ++ err))) :=
  ⟨rfl, generatePDF_empty_endpoints (envWith sampleReadyEmpty) sampleReadyEmpty rfl⟩

theorem generatePDF_identifier_witness :
    (generatePDF (envWith sampleReady) sampleReady).1.2 = none ∧
    (generatePDF envError sampleReadyEmpty).1.2 = none ∧
    sampleReady.Host = sampleReadyEmpty.Host ∧
    sampleReady.Endpoints ≠ sampleReadyEmpty.Endpoints ∧
    (generatePDF (envWith sampleReady) sampleReady).1.1
      = "files/ssl_report_" ++ sampleReady.Host ++ ".pdf" ∧
    (generatePDF (envWith sampleReady) sampleReady).1.1
      = (generatePDF envError sampleReadyEmpty).1.1 :=
  ⟨rfl, rfl, rfl, by decide,
    generatePDF_identifier (envWith sampleReady) envError sampleReady sampleReadyEmpty rfl rfl rfl⟩

/-! ## The handler -/

/-- C7: a POST request whose `host` form value is empty is answered with
400 "Host is required", and the handler makes no call at all before that: no
request to the remote service, no call of `fetchSSLData` or `generatePDF`, no
file written. -/
theorem analyzeHandler_rejects_empty_host (env : Env) (r : Request) (hm : r.Method = "POST")
    (hh : r.FormValue "host" = "") :
    (analyzeHandler env r).1 = Reply.error "Host is required" 400 ∧
    (analyzeHandler env r).2 = [] := by
  rw [analyzeHandler_empty_host env r hm hh]
  exact ⟨rfl, rfl⟩

theorem analyzeHandler_rejects_empty_host_witness :
    (postOf "").Method = "POST" ∧ (postOf "").FormValue "host" = "" ∧
    (analyzeHandler (envWith sampleReady) (postOf "")).1 = Reply.error "Host is required" 400 ∧
    (analyzeHandler (envWith sampleReady) (postOf "")).2 = [] :=
  ⟨rfl, rfl, analyzeHandler_rejects_empty_host (envWith sampleReady) (postOf "") rfl rfl⟩

theorem generatePDF_ret_xor (env : Env) (response : Response) :
    ((generatePDF env response).1.1 ≠ "" ∧ (generatePDF env response).1.2 = none) ∨
    ((generatePDF env response).1.1 = "" ∧ (generatePDF env response).1.2 ≠ none) := by
  rcases generatePDF_cases env response with ⟨err, _, hgen⟩ | ⟨_, hgen⟩
  · right
    simp [hgen]
  · left
    rw [hgen, filename_eq]
    refine ⟨?_, rfl⟩
    intro h
    have := congrArg String.data h
    simp at this

/-- C6: in `analyzeHandler` report and error exclude each other.  If the call
of `fetchSSLData` returns an error, the reply is an error reply (which carries
no link), `generatePDF` is not called and no file is written.  A reply that
carries a report link is sent only when `fetchSSLData` and `generatePDF` were
both called and both returned without error, and the link is built from the
identifier `generatePDF` returned.  `generatePDF` itself returns either a
non-empty identifier and no error, or the empty identifier and an error. -/
theorem analyzeHandler_report_xor_error (env : Env) (r : Request) :
    (∀ host, Event.fetchSSLDataCalled host ∈ (analyzeHandler env r).2 →
      (fetchSSLData env host).1.2 ≠ none →
        (∃ msg code, (analyzeHandler env r).1 = Reply.error msg code) ∧
        (∀ resp, Event.generatePDFCalled resp ∉ (analyzeHandler env r).2) ∧
        (∀ filename doc, Event.outputFile filename doc ∉ (analyzeHandler env r).2)) ∧
    (∀ contentType name data,
      (analyzeHandler env r).1 = Reply.executeTemplate contentType name data →
        ∃ resp,
          Event.fetchSSLDataCalled (r.FormValue "host") ∈ (analyzeHandler env r).2 ∧
          (fetchSSLData env (r.FormValue "host")).1 = (resp, none) ∧
          Event.generatePDFCalled resp ∈ (analyzeHandler env r).2 ∧
          (generatePDF env resp).1 = (data.Name, none) ∧
          data.Result = "http://" ++ r.Host ++ "/" ++ data.Name) ∧
    (∀ resp,
      ((generatePDF env resp).1.1 ≠ "" ∧ (generatePDF env resp).1.2 = none) ∨
      ((generatePDF env resp).1.1 = "" ∧ (generatePDF env resp).1.2 ≠ none)) := by
  refine ⟨?_, ?_, generatePDF_ret_xor env⟩
  · by_cases hm : r.Method = "POST"
    · by_cases hh : r.FormValue "host" = ""
      · simp [analyzeHandler_empty_host env r hm hh]
      · rcases fetchSSLData_cases env (r.FormValue "host") with
          ⟨err, _, hf⟩ | ⟨body, resp, err, _, _, hf⟩ | ⟨body, resp, _, _, hf⟩
        · simp [analyzeHandler_fetch_error env r _ err _ hm hh hf]
        · simp [analyzeHandler_fetch_error env r _ err _ hm hh hf]
        · rcases generatePDF_cases env resp with ⟨err, _, hgen⟩ | ⟨_, hgen⟩
          · rw [analyzeHandler_pdf_error env r resp _ _ _ _ hm hh hf hgen]
            intro host hmem herr
            simp at hmem
            subst hmem
            simp [hf] at herr
          · rw [analyzeHandler_pdf_ok env r resp _ _ _ hm hh hf hgen]
            intro host hmem herr
            simp at hmem
            subst hmem
            simp [hf] at herr
    · simp [analyzeHandler_not_post env r hm]
  · by_cases hm : r.Method = "POST"
    · by_cases hh : r.FormValue "host" = ""
      · simp [analyzeHandler_empty_host env r hm hh]
      · rcases fetchSSLData_cases env (r.FormValue "host") with
          ⟨err, _, hf⟩ | ⟨body, resp, err, _, _, hf⟩ | ⟨body, resp, _, _, hf⟩
        · simp [analyzeHandler_fetch_error env r _ err _ hm hh hf]
        · simp [analyzeHandler_fetch_error env r _ err _ hm hh hf]
        · rcases generatePDF_cases env resp with ⟨err, _, hgen⟩ | ⟨_, hgen⟩
          · simp [analyzeHandler_pdf_error env r resp _ _ _ _ hm hh hf hgen]
          · rw [analyzeHandler_pdf_ok env r resp _ _ _ hm hh hf hgen]
            intro contentType name data hreply
            refine ⟨resp, by simp, by simp [hf], by simp, ?_⟩
            cases hp : env.parseFiles "index.html" with
            | some err => simp [hp] at hreply
            | none =>
              simp only [hp, Reply.executeTemplate.injEq] at hreply
              obtain ⟨_, _, hdata⟩ := hreply
              subst hdata
              simp [hgen]
    · simp [analyzeHandler_not_post env r hm]

/-! ## Start-up -/

theorem checkAPIService_get_error (env : Env) (err : String)
    (h : env.httpGet sslLabsInfoURL = .error err) :
    checkAPIService env =
      (Exec.exited 1,
        [ Event.httpGet sslLabsInfoURL,
          Event.logFatal ("Failed to fetch API service info: " ++ err ++ "\n") ]) := by
  simp [checkAPIService, h]

theorem checkAPIService_decode_error (env : Env) (body err : String)
    (h : env.httpGet sslLabsInfoURL = .ok body) (hd : env.decodeInfo body = .error err) :
    checkAPIService env =
      (Exec.exited 1,
        [ Event.httpGet sslLabsInfoURL,
          Event.logFatal ("Failed to decode API service info: " ++ err ++ "\n") ]) := by
  simp [checkAPIService, h, hd]

theorem main_of_exit (env : Env) (code : Nat) (t : List Event)
    (h : checkAPIService env = (Exec.exited code, t)) : main env = (Exec.exited code, t) := by
  simp [main, h]

theorem infoURL_ne_analyzeURL (host : String) :
    sslLabsInfoURL ≠ sslLabsAPIBaseURL ++ "?host=" ++ host := by
  intro h
  have := congrArg String.data h
  simp [sslLabsInfoURL, sslLabsAPIBaseURL] at this

/-- C8: if the pre-flight probe fails (the info request errors, or its body
does not decode), `checkAPIService` does not return: it logs the failure and
the process exits with status 1.  `main` then registers no handler and starts
no server, and the only request the process has made is the info request, so
the analyze endpoint is never called. -/
theorem probe_failure_stops_main (env : Env)
    (hprobe : (∃ err, env.httpGet sslLabsInfoURL = .error err) ∨
      (∃ body err, env.httpGet sslLabsInfoURL = .ok body ∧ env.decodeInfo body = .error err)) :
    (checkAPIService env).1 = Exec.exited 1 ∧
    (main env).1 = Exec.exited 1 ∧
    (∃ err, (main env).2 =
        [ Event.httpGet sslLabsInfoURL,
          Event.logFatal ("Failed to fetch API service info: " ++ err ++ "\n") ] ∨
      (main env).2 =
        [ Event.httpGet sslLabsInfoURL,
          Event.logFatal ("Failed to decode API service info: " ++ err ++ "\n") ]) ∧
    (∀ pattern h, Event.handle pattern h ∉ (main env).2) ∧
    (∀ addr, Event.listenAndServe addr ∉ (main env).2) ∧
    (∀ host, Event.fetchSSLDataCalled host ∉ (main env).2) ∧
    (∀ host, Event.httpGet (sslLabsAPIBaseURL ++ "?host=" ++ host) ∉ (main env).2) := by
  rcases hprobe with ⟨err, h⟩ | ⟨body, err, h, hd⟩
  · have hc := checkAPIService_get_error env err h
    rw [main_of_exit env 1 _ hc, hc]
    refine ⟨rfl, rfl, ⟨err, Or.inl rfl⟩, by simp, by simp, by simp, ?_⟩
    intro host hmem
    simp at hmem
    exact infoURL_ne_analyzeURL host hmem.symm
  · have hc := checkAPIService_decode_error env body err h hd
    rw [main_of_exit env 1 _ hc, hc]
    refine ⟨rfl, rfl, ⟨err, Or.inr rfl⟩, by simp, by simp, by simp, ?_⟩
    intro host hmem
    simp at hmem
    exact infoURL_ne_analyzeURL host hmem.symm

theorem probe_failure_stops_main_witness :
    (∃ err, envDown.httpGet sslLabsInfoURL = .error err) ∧
    (main envDown).1 = Exec.exited 1 ∧
    (∀ pattern h, Event.handle pattern h ∉ (main envDown).2) ∧
    (∀ addr, Event.listenAndServe addr ∉ (main envDown).2) :=
  have h := probe_failure_stops_main envDown (Or.inl ⟨_, rfl⟩)
  ⟨⟨_, rfl⟩, h.2.1, h.2.2.2.1, h.2.2.2.2.1⟩

/-- When the probe succeeds and the server keeps running, `main` has
registered the three routes and entered `ListenAndServe`. -/
theorem main_serves :
    (main (envWith sampleReady)).1 = Exec.serving ∧
    Event.handle "/analyze" Handler.analyzeHandler ∈ (main (envWith sampleReady)).2 ∧
    Event.handle "/files/" filesHandler ∈ (main (envWith sampleReady)).2 ∧
    Event.listenAndServe ":8080" ∈ (main (envWith sampleReady)).2 := by
  decide


/-! ## The static file route -/

/-- The model of `path.Clean` on the examples of its documentation. -/
theorem pathClean_examples :
    pathClean "a/c".data = "a/c".data ∧
    pathClean "a//c".data = "a/c".data ∧
    pathClean "a/c/.".data = "a/c".data ∧
    pathClean "a/c/b/..".data = "a/c".data ∧
    pathClean "/../a/c".data = "/a/c".data ∧
    pathClean "/../a/b/../././/c".data = "/a/c".data ∧
    pathClean "abc/def/../../..".data = "..".data ∧
    pathClean "".data = ".".data := by
  decide

theorem char_le_iff (a b : Char) : a ≤ b ↔ a.toNat ≤ b.toNat := by
  rw [Char.le_def]
  exact Iff.rfl

theorem isAlnum_not_isCTL (c : Char) (h : isAlnum c = true) : isCTL c = false := by
  simp only [isAlnum, isCTL, Bool.or_eq_true, Bool.and_eq_true, decide_eq_true_eq, char_le_iff,
    Bool.or_eq_false_iff, decide_eq_false_iff_not, beq_eq_false_iff_ne] at *
  have e₁ : 'a'.toNat = 97 := rfl
  have e₂ : 'z'.toNat = 122 := rfl
  have e₃ : 'A'.toNat = 65 := rfl
  have e₄ : 'Z'.toNat = 90 := rfl
  have e₅ : '0'.toNat = 48 := rfl
  have e₆ : '9'.toNat = 57 := rfl
  rw [e₁, e₂, e₃, e₄, e₅, e₆] at h
  omega

theorem isDigit_isAlnum (c : Char) (h : isDigit c = true) : isAlnum c = true := by
  simp only [isDigit, isAlnum, Bool.or_eq_true, Bool.and_eq_true] at *
  exact Or.inr h

/-- What holds of a character of a host name: letter, digit, `-` or `.`. -/
theorem hostChar_facts (c : Char) (h : isAlnum c = true ∨ c = '-' ∨ c = '.') :
    isCTL c = false ∧ shouldEscape c .encodeHost = false ∧
      c ≠ '%' ∧ c ≠ '#' ∧ c ≠ '?' ∧ c ≠ '/' ∧ c ≠ ':' ∧ c ≠ '@' ∧ c ≠ '[' := by
  rcases h with h | rfl | rfl
  · refine ⟨isAlnum_not_isCTL c h, by simp [shouldEscape, h], ?_, ?_, ?_, ?_, ?_, ?_, ?_⟩ <;>
      · rintro rfl
        revert h
        decide
  · decide
  · decide

theorem escapesOK_host (s : List Char)
    (h : ∀ c ∈ s, c ≠ '%' ∧ shouldEscape c .encodeHost = false) :
    escapesOK .encodeHost s = true := by
  induction s with
  | nil => simp [escapesOK]
  | cons c cs ih =>
    have hc := h c (List.mem_cons_self c cs)
    unfold escapesOK
    rw [if_neg hc.1, if_neg (by simp [hc.2])]
    exact ih fun x hx => h x (List.mem_cons_of_mem c hx)

theorem escapesOK_path (s : List Char) (h : '%' ∉ s) : escapesOK .encodePath s = true := by
  induction s with
  | nil => simp [escapesOK]
  | cons c cs ih =>
    simp only [List.mem_cons, not_or] at h
    unfold escapesOK
    rw [if_neg (Ne.symm h.1), if_neg (by simp)]
    exact ih h.2

theorem decodeEscapes_of_no_percent (s : List Char) (h : '%' ∉ s) :
    decodeEscapes s = some s := by
  induction s with
  | nil => simp [decodeEscapes]
  | cons c cs ih =>
    simp only [List.mem_cons, not_or] at h
    unfold decodeEscapes
    rw [if_neg (Ne.symm h.1), ih h.2]
    rfl

theorem unescape_path_of_no_percent (s : List Char) (h : '%' ∉ s) :
    unescape s .encodePath = some s := by
  simp [unescape, escapesOK_path s h, decodeEscapes_of_no_percent s h]

theorem takeWhile_ne_of_not_mem (c : Char) (s : List Char) (h : c ∉ s) :
    s.takeWhile (fun x => x ≠ c) = s := by
  rw [List.takeWhile_eq_self_iff]
  intro x hx
  have hne : x ≠ c := fun hxc => h (hxc ▸ hx)
  simpa using hne

theorem dropWhile_ne_of_not_mem (c : Char) (s : List Char) (h : c ∉ s) :
    s.dropWhile (fun x => x ≠ c) = [] := by
  rw [List.dropWhile_eq_nil_iff]
  intro x hx
  have hne : x ≠ c := fun hxc => h (hxc ▸ hx)
  simpa using hne

theorem takeWhile_ne_append (c : Char) (a rest : List Char) (h : c ∉ a) :
    (a ++ c :: rest).takeWhile (fun x => x ≠ c) = a := by
  induction a with
  | nil => simp [List.takeWhile_cons]
  | cons x xs ih =>
    simp only [List.mem_cons, not_or] at h
    rw [List.cons_append, List.takeWhile_cons, if_pos (by simpa using Ne.symm h.1)]
    rw [ih h.2]

theorem dropWhile_ne_append (c : Char) (a rest : List Char) (h : c ∉ a) :
    (a ++ c :: rest).dropWhile (fun x => x ≠ c) = c :: rest := by
  induction a with
  | nil => simp [List.dropWhile_cons]
  | cons x xs ih =>
    simp only [List.mem_cons, not_or] at h
    rw [List.cons_append, List.dropWhile_cons, if_pos (by simpa using Ne.symm h.1)]
    exact ih h.2

theorem cutLast_of_not_mem (sep : Char) (s : List Char) (h : sep ∉ s) :
    cutLast sep s = none := by
  induction s with
  | nil => rfl
  | cons x xs ih =>
    simp only [List.mem_cons, not_or] at h
    simp [cutLast, ih h.2, Ne.symm h.1]

theorem cutLast_append (sep : Char) (before after : List Char) (h : sep ∉ after) :
    cutLast sep (before ++ sep :: after) = some (before, after) := by
  induction before with
  | nil => simp [cutLast, cutLast_of_not_mem sep after h]
  | cons x xs ih => simp [cutLast, ih]

theorem parseAuthority_hostPort (a : List Char) (ha : IsHostPort a) :
    parseAuthority a = true := by
  obtain ⟨host, digits, hform, hhost, hdigits⟩ := ha
  have hd : ∀ c ∈ digits, isAlnum c = true ∨ c = '-' ∨ c = '.' := fun c hc =>
    Or.inl (isDigit_isAlnum c (hdigits c hc))
  have hcolon : shouldEscape ':' .encodeHost = false := by decide
  rcases hform with rfl | rfl
  · have hat : '@' ∉ a := fun hm => (hostChar_facts _ (hhost _ hm)).2.2.2.2.2.2.2.1 rfl
    have hco : ':' ∉ a := fun hm => (hostChar_facts _ (hhost _ hm)).2.2.2.2.2.2.1 rfl
    have hbr : a.head? ≠ some '[' := by
      cases a with
      | nil => simp
      | cons x xs =>
        have := (hostChar_facts x (hhost x (List.mem_cons_self x xs))).2.2.2.2.2.2.2.2
        simpa using this
    have hesc : escapesOK .encodeHost a = true := escapesOK_host a fun c hc =>
      ⟨(hostChar_facts c (hhost c hc)).2.2.1, (hostChar_facts c (hhost c hc)).2.1⟩
    simp [parseAuthority, cutLast_of_not_mem '@' a hat, parseHost, hbr,
      cutLast_of_not_mem ':' a hco, hesc]
  · have hat : '@' ∉ host ++ ':' :: digits := by
      intro hm
      rcases List.mem_append.1 hm with hm | hm
      · exact (hostChar_facts _ (hhost _ hm)).2.2.2.2.2.2.2.1 rfl
      · rcases List.mem_cons.1 hm with hm | hm
        · exact absurd hm (by decide)
        · exact (hostChar_facts _ (hd _ hm)).2.2.2.2.2.2.2.1 rfl
    have hco : ':' ∉ digits := fun hm => (hostChar_facts _ (hd _ hm)).2.2.2.2.2.2.1 rfl
    have hbr : (host ++ ':' :: digits).head? ≠ some '[' := by
      cases host with
      | nil => simp
      | cons x xs =>
        have := (hostChar_facts x (hhost x (List.mem_cons_self x xs))).2.2.2.2.2.2.2.2
        simpa using this
    have hesc : escapesOK .encodeHost (host ++ ':' :: digits) = true :=
      escapesOK_host _ fun c hc => by
        rcases List.mem_append.1 hc with hm | hm
        · exact ⟨(hostChar_facts c (hhost c hm)).2.2.1, (hostChar_facts c (hhost c hm)).2.1⟩
        · rcases List.mem_cons.1 hm with hm | hm
          · subst hm
            exact ⟨by decide, hcolon⟩
          · exact ⟨(hostChar_facts c (hd c hm)).2.2.1, (hostChar_facts c (hd c hm)).2.1⟩
    have hbr' : host.head? ≠ some '[' := by
      cases host with
      | nil => simp
      | cons x xs =>
        have := (hostChar_facts x (hhost x (List.mem_cons_self x xs))).2.2.2.2.2.2.2.2
        simpa using this
    have hall : digits.all isDigit = true := List.all_eq_true.2 hdigits
    simp [parseAuthority, cutLast_of_not_mem '@' _ hat, parseHost, hbr, hbr',
      cutLast_append ':' host digits hco, hesc, validOptionalPort, hall]


theorem hostPort_chars (a : List Char) (ha : IsHostPort a) :
    ∀ c ∈ a, isCTL c = false ∧ c ≠ '#' ∧ c ≠ '?' ∧ c ≠ '/' := by
  obtain ⟨host, digits, hform, hhost, hdigits⟩ := ha
  have key : ∀ c, (isAlnum c = true ∨ c = '-' ∨ c = '.') →
      isCTL c = false ∧ c ≠ '#' ∧ c ≠ '?' ∧ c ≠ '/' := fun c hc =>
    ⟨(hostChar_facts c hc).1, (hostChar_facts c hc).2.2.2.1, (hostChar_facts c hc).2.2.2.2.1,
      (hostChar_facts c hc).2.2.2.2.2.1⟩
  intro c hc
  rcases hform with rfl | rfl
  · exact key c (hhost c hc)
  · rcases List.mem_append.1 hc with hm | hm
    · exact key c (hhost c hm)
    · rcases List.mem_cons.1 hm with hm | hm
      · subst hm
        decide
      · exact key c (Or.inl (isDigit_isAlnum c (hdigits c hm)))

theorem getScheme_http (rest : List Char) :
    getScheme ("http://".data ++ rest) = some ("http".data, "//".data ++ rest) := by
  simp [getScheme, getSchemeFrom, isDigit, char_le_iff]

theorem parse_link (a p : List Char) (ha : IsHostPort a)
    (hp : ∀ c ∈ p, c ≠ '?' ∧ c ≠ '#' ∧ c ≠ '%' ∧ isCTL c = false) :
    ∃ rp, parse ("http://".data ++ a ++ '/' :: p) = some { Path := '/' :: p, RawPath := rp } ∧
      (rp = [] ∨ rp = '/' :: p) := by
  have hA := hostPort_chars a ha
  have hquery : '?' ∉ "//".data ++ (a ++ '/' :: p) := by
    intro hm
    rcases List.mem_append.1 hm with hm | hm
    · revert hm
      decide
    · rcases List.mem_append.1 hm with hm | hm
      · exact (hA _ hm).2.2.1 rfl
      · rcases List.mem_cons.1 hm with hm | hm
        · exact absurd hm (by decide)
        · exact (hp _ hm).1 rfl
  have hslash : '/' ∉ a := fun hm => (hA _ hm).2.2.2 rfl
  have hpercent : '%' ∉ '/' :: p := by
    intro hm
    rcases List.mem_cons.1 hm with hm | hm
    · exact absurd hm (by decide)
    · exact (hp _ hm).2.2.1 rfl
  have hlit : ∀ c ∈ "http://".data, isCTL c = false := by decide
  have hctl : ¬ (("http://".data ++ a ++ '/' :: p).any isCTL = true) := by
    rw [Bool.not_eq_true, List.any_eq_false]
    intro c hm
    rw [Bool.not_eq_true]
    rcases List.mem_append.1 hm with hm | hm
    · rcases List.mem_append.1 hm with hm | hm
      · exact hlit c hm
      · exact (hA _ hm).1
    · rcases List.mem_cons.1 hm with hm | hm
      · subst hm
        decide
      · exact (hp _ hm).2.2.2
  have hstar : "http://".data ++ a ++ '/' :: p ≠ ['*'] := by simp
  have hscheme := getScheme_http (a ++ '/' :: p)
  rw [← List.append_assoc] at hscheme
  have hauth := parseAuthority_hostPort a ha
  have hun := unescape_path_of_no_percent ('/' :: p) hpercent
  have hdrop : ("//".data ++ (a ++ '/' :: p)).drop 2 = a ++ '/' :: p := by simp
  have hhead : ("//".data ++ (a ++ '/' :: p)).head? = some '/' := by simp
  have hpre : "//".data.isPrefixOf ("//".data ++ (a ++ '/' :: p)) = true := by
    simp [List.isPrefixOf]
  have hne : "http".data ≠ [] := by decide
  unfold parse
  rw [if_neg hctl, if_neg hstar, hscheme]
  simp only [takeWhile_ne_of_not_mem '?' _ hquery, hhead, ne_eq, not_true_eq_false, if_false,
    hne, not_false_eq_true, true_or, hpre, and_self, if_true, hdrop,
    takeWhile_ne_append '/' a p hslash, dropWhile_ne_append '/' a p hslash, hauth, setPath, hun]
  by_cases hraw : '/' :: p = escape ('/' :: p) .encodePath
  · exact ⟨[], by rw [if_pos hraw], Or.inl rfl⟩
  · exact ⟨'/' :: p, by rw [if_neg hraw], Or.inr rfl⟩

theorem urlParse_link (a p : List Char) (ha : IsHostPort a)
    (hp : ∀ c ∈ p, c ≠ '?' ∧ c ≠ '#' ∧ c ≠ '%' ∧ isCTL c = false) :
    ∃ rp, urlParse ("http://".data ++ a ++ '/' :: p)
        = some { Path := '/' :: p, RawPath := rp } ∧
      (rp = [] ∨ rp = '/' :: p) := by
  have hA := hostPort_chars a ha
  have hsharp : '#' ∉ "http://".data ++ a ++ '/' :: p := by
    intro hm
    rcases List.mem_append.1 hm with hm | hm
    · rcases List.mem_append.1 hm with hm | hm
      · revert hm
        decide
      · exact (hA _ hm).2.1 rfl
    · rcases List.mem_cons.1 hm with hm | hm
      · exact absurd hm (by decide)
      · exact (hp _ hm).2.1 rfl
  obtain ⟨rp, hparse, hrp⟩ := parse_link a p ha hp
  refine ⟨rp, ?_, hrp⟩
  simp only [urlParse, takeWhile_ne_of_not_mem '#' _ hsharp,
    dropWhile_ne_of_not_mem '#' _ hsharp, hparse, List.drop_nil, if_true]

theorem splitSlash_of_not_mem (s : List Char) (h : '/' ∉ s) : splitSlash s = [s] := by
  induction s with
  | nil => rfl
  | cons x xs ih =>
    simp only [List.mem_cons, not_or] at h
    simp [splitSlash, Ne.symm h.1, ih h.2]

theorem splitSlash_append (a b : List Char) (h : '/' ∉ a) :
    splitSlash (a ++ '/' :: b) = a :: splitSlash b := by
  induction a with
  | nil => simp [splitSlash]
  | cons x xs ih =>
    simp only [List.mem_cons, not_or] at h
    simp [splitSlash, Ne.symm h.1, ih h.2]

theorem pathClean_rooted_name (name : List Char) (h₁ : '/' ∉ name) (h₂ : name ≠ [])
    (h₃ : name ≠ ['.']) (h₄ : name ≠ ['.', '.']) :
    pathClean ('/' :: name) = '/' :: name := by
  have hs : splitSlash ('/' :: name) = [[], name] := by
    simp [splitSlash, splitSlash_of_not_mem name h₁]
  unfold pathClean
  rw [hs]
  simp [cleanElems, h₂, h₃, h₄, List.intercalate, List.intersperse]

theorem pathClean_dir_name (dir name : List Char) (hd₁ : '/' ∉ dir) (hd₂ : dir ≠ [])
    (hd₃ : dir ≠ ['.']) (hd₄ : dir ≠ ['.', '.'])
    (h₁ : '/' ∉ name) (h₂ : name ≠ [])
    (h₃ : name ≠ ['.']) (h₄ : name ≠ ['.', '.']) :
    pathClean (dir ++ '/' :: name) = dir ++ '/' :: name := by
  have hs : splitSlash (dir ++ '/' :: name) = [dir, name] := by
    rw [splitSlash_append dir name hd₁, splitSlash_of_not_mem name h₁]
  have hhead : dir.head? ≠ some '/' := by
    cases dir with
    | nil => exact absurd rfl hd₂
    | cons x xs =>
      simp only [List.mem_cons, not_or] at hd₁
      simpa using Ne.symm hd₁.1
  unfold pathClean
  rw [hs]
  simp [cleanElems, h₂, h₃, h₄, hd₂, hd₃, hd₄, hhead, List.intercalate, List.intersperse]


theorem pathClean_rooted_twice (name : List Char) (h₁ : '/' ∉ name) (h₂ : name ≠ [])
    (h₃ : name ≠ ['.']) (h₄ : name ≠ ['.', '.']) :
    pathClean ('/' :: '/' :: name) = '/' :: name := by
  have hs : splitSlash ('/' :: '/' :: name) = [[], [], name] := by
    simp [splitSlash, splitSlash_of_not_mem name h₁]
  unfold pathClean
  rw [hs]
  simp [cleanElems, h₂, h₃, h₄, List.intercalate, List.intersperse]

theorem dirOpen_files (name : List Char) (h₁ : '/' ∉ name) (h₂ : name ≠ [])
    (h₃ : name ≠ ['.']) (h₄ : name ≠ ['.', '.']) (h₀ : Char.ofNat 0 ∉ name) :
    dirOpen "files".data ('/' :: name) = some ("files/".data ++ name) := by
  have hjoin := pathClean_dir_name "files".data name (by decide) (by decide) (by decide)
    (by decide) h₁ h₂ h₃ h₄
  unfold dirOpen filepathJoin
  rw [pathClean_rooted_twice name h₁ h₂ h₃ h₄]
  simp only [List.drop_succ_cons, List.drop_zero, if_neg h₂, if_neg h₀]
  simpa using hjoin

theorem servedFile_filesHandler (name rp : List Char) (h₁ : '/' ∉ name) (h₂ : name ≠ [])
    (h₃ : name ≠ ['.']) (h₄ : name ≠ ['.', '.'])
    (h₅ : "/index.html".data.isSuffixOf ('/' :: name) = false) (h₀ : Char.ofNat 0 ∉ name)
    (hrp : rp = [] ∨ rp = "/files/".data ++ name) :
    servedFile filesHandler { Path := "/files/".data ++ name, RawPath := rp }
      = some ("files/".data ++ name) := by
  have hpfx : ("/files/" : String) ≠ "" := by decide
  have htrim : trimPrefix ("/files/".data ++ name) "/files/".data = name := by
    simp [trimPrefix, List.isPrefixOf]
  have hlen : name.length < ("/files/".data ++ name).length := by
    rw [List.length_append]
    exact Nat.lt_add_of_pos_left (by decide)
  have hhead : name.head? ≠ some '/' := by
    cases name with
    | nil => exact absurd rfl h₂
    | cons x xs =>
      simp only [List.mem_cons, not_or] at h₁
      simpa using Ne.symm h₁.1
  have hraw : rp = [] ∨ (trimPrefix rp "/files/".data).length < rp.length := by
    rcases hrp with h | h
    · exact Or.inl h
    · right
      rw [h, htrim]
      exact hlen
  simp only [filesHandler, servedFile, if_neg hpfx, htrim, hlen, hraw, and_self, if_true,
    if_neg hhead, h₅, pathClean_rooted_name name h₁ h₂ h₃ h₄]
  simpa using dirOpen_files name h₁ h₂ h₃ h₄ h₀

theorem plainInPath_facts (c : Char) (h : plainInPath c = true) :
    c ≠ '/' ∧ c ≠ '?' ∧ c ≠ '#' ∧ c ≠ '%' ∧ isCTL c = false := by
  simp only [plainInPath, Bool.not_eq_true', Bool.or_eq_false_iff, beq_eq_false_iff_ne] at h
  exact ⟨h.1.1.1.1.1, h.1.1.1.2, h.1.1.2, h.1.2, h.2⟩

theorem not_isCTL_ne_nul (c : Char) (h : isCTL c = false) : c ≠ Char.ofNat 0 := by
  rintro rfl
  revert h
  decide

theorem reportName_facts (host : List Char) (h : ∀ c ∈ host, plainInPath c = true) :
    '/' ∉ "ssl_report_".data ++ host ++ ".pdf".data ∧
    "ssl_report_".data ++ host ++ ".pdf".data ≠ [] ∧
    "ssl_report_".data ++ host ++ ".pdf".data ≠ ['.'] ∧
    "ssl_report_".data ++ host ++ ".pdf".data ≠ ['.', '.'] ∧
    "/index.html".data.isSuffixOf ('/' :: ("ssl_report_".data ++ host ++ ".pdf".data)) = false ∧
    Char.ofNat 0 ∉ "ssl_report_".data ++ host ++ ".pdf".data ∧
    ∀ c ∈ "files/".data ++ ("ssl_report_".data ++ host ++ ".pdf".data),
      c ≠ '?' ∧ c ≠ '#' ∧ c ≠ '%' ∧ isCTL c = false := by
  have hslash : '/' ∉ host := fun hm => (plainInPath_facts _ (h _ hm)).1 rfl
  have hlit₁ : ∀ c ∈ "files/".data ++ "ssl_report_".data,
      c ≠ '?' ∧ c ≠ '#' ∧ c ≠ '%' ∧ isCTL c = false := by decide
  have hlit₂ : ∀ c ∈ ".pdf".data, c ≠ '?' ∧ c ≠ '#' ∧ c ≠ '%' ∧ isCTL c = false := by decide
  have hall : ∀ c ∈ "files/".data ++ ("ssl_report_".data ++ host ++ ".pdf".data),
      c ≠ '?' ∧ c ≠ '#' ∧ c ≠ '%' ∧ isCTL c = false := by
    intro c hm
    rw [← List.append_assoc, ← List.append_assoc] at hm
    rcases List.mem_append.1 hm with hm | hm
    · rcases List.mem_append.1 hm with hm | hm
      · exact hlit₁ c hm
      · exact (plainInPath_facts c (h c hm)).2
    · exact hlit₂ c hm
  refine ⟨by simp [hslash], by simp, by simp, by simp, ?_, ?_, hall⟩
  · rw [Bool.eq_false_iff]
    intro hsuf
    rw [List.isSuffixOf_iff_suffix] at hsuf
    obtain ⟨t, ht⟩ := hsuf
    have := congrArg List.reverse ht
    simp at this
  · intro hm
    exact not_isCTL_ne_nul _ (hall _ (List.mem_append_right _ hm)).2.2.2 rfl

/-- What a reply that executes the template tells about the run. -/
theorem analyzeHandler_success_inv (env : Env) (r : Request) (contentType name : String)
    (data : AnalysisStatus)
    (hok : (analyzeHandler env r).1 = Reply.executeTemplate contentType name data) :
    ∃ resp t₁, fetchSSLData env (r.FormValue "host") = ((resp, none), t₁) ∧
      data = { Result := "http://" ++ r.Host ++ "/"
                  ++ (filesBaseURL ++ "ssl_report_" ++ resp.Host ++ ".pdf"),
               Completed := true, Error := "",
               Name := filesBaseURL ++ "ssl_report_" ++ resp.Host ++ ".pdf" } ∧
      (analyzeHandler env r).2 =
        [Event.fetchSSLDataCalled (r.FormValue "host")] ++ t₁
          ++ [Event.generatePDFCalled resp]
          ++ [Event.outputFile (filesBaseURL ++ "ssl_report_" ++ resp.Host ++ ".pdf")
                (pdfOps env.now resp)] := by
  by_cases hm : r.Method = "POST"
  · by_cases hh : r.FormValue "host" = ""
    · simp [analyzeHandler_empty_host env r hm hh] at hok
    · rcases fetchSSLData_cases env (r.FormValue "host") with
        ⟨err, _, hf⟩ | ⟨body, resp, err, _, _, hf⟩ | ⟨body, resp, _, _, hf⟩
      · simp [analyzeHandler_fetch_error env r _ err _ hm hh hf] at hok
      · simp [analyzeHandler_fetch_error env r _ err _ hm hh hf] at hok
      · rcases generatePDF_cases env resp with ⟨err, _, hgen⟩ | ⟨_, hgen⟩
        · simp [analyzeHandler_pdf_error env r resp _ _ _ _ hm hh hf hgen] at hok
        · rw [analyzeHandler_pdf_ok env r resp _ _ _ hm hh hf hgen] at hok ⊢
          cases hp : env.parseFiles "index.html" with
          | some err => simp [hp] at hok
          | none =>
            simp only [hp, Reply.executeTemplate.injEq] at hok
            exact ⟨resp, _, hf, hok.2.2.symm, rfl⟩
  · simp [analyzeHandler_not_post env r hm] at hok

/-- C10, as stated, fails: the remote host field `a?b` holds no path
separator, the handler succeeds and `generatePDF` writes
`files/ssl_report_a?b.pdf`, but the path of the returned link ends at the
question mark, so the static file handler opens `files/ssl_report_a`. -/
theorem report_link_cut_at_query :
    '/' ∉ sampleQuery.Host.data ∧ '\\' ∉ sampleQuery.Host.data ∧
    analyzeHandler (envWith sampleQuery) (postOf "a?b") =
      (Reply.executeTemplate "application/json" "result"
          { Result := "http://localhost:8080/files/ssl_report_a?b.pdf",
            Completed := true, Error := "", Name := "files/ssl_report_a?b.pdf" },
        [ Event.fetchSSLDataCalled "a?b",
          Event.httpGet "https://api.ssllabs.com/api/v3/analyze?host=a?b",
          Event.generatePDFCalled sampleQuery,
          Event.outputFile "files/ssl_report_a?b.pdf"
            (pdfOps "2024-01-01 00:00:00" sampleQuery) ]) ∧
    urlParse "http://localhost:8080/files/ssl_report_a?b.pdf".data
      = some { Path := "/files/ssl_report_a".data, RawPath := [] } ∧
    servedFile filesHandler { Path := "/files/ssl_report_a".data, RawPath := [] }
      = some "files/ssl_report_a".data ∧
    "files/ssl_report_a" ≠ "files/ssl_report_a?b.pdf" :=
  ⟨by decide, by decide, rfl, by decide, by decide, by decide⟩

/-- C10, amended: for every request for which `analyzeHandler` succeeds, the
link it returns is "http://" + a + "/files/ssl_report_" + h' + ".pdf", with a
the request's Host value and h' the host field of the remote response, and the
file `generatePDF` wrote is "files/ssl_report_" + h' + ".pdf".  If moreover a
is a host name with an optional port (ASCII letters, digits, `-`, `.`,
optionally a colon and decimal digits) and h' holds no path separator (`/`,
`\`), none of `?`, `#`, `%` and no ASCII control character, then stripping
"/files/" from the path of the link and resolving the remainder inside the
directory "files", as the static file handler registered in `main` does, names
exactly that file. -/
theorem report_link_resolves (env : Env) (r : Request) (contentType name : String)
    (data : AnalysisStatus)
    (hok : (analyzeHandler env r).1 = Reply.executeTemplate contentType name data) :
    data.Result = "http://" ++ r.Host ++ "/files/ssl_report_"
      ++ (fetchSSLData env (r.FormValue "host")).1.1.Host ++ ".pdf" ∧
    data.Name = "files/ssl_report_" ++ (fetchSSLData env (r.FormValue "host")).1.1.Host
      ++ ".pdf" ∧
    (∃ doc, Event.outputFile data.Name doc ∈ (analyzeHandler env r).2) ∧
    (∀ serverPort, Event.handle "/files/" filesHandler ∈ (serve env serverPort).2) ∧
    (IsHostPort r.Host.data →
      (∀ c ∈ (fetchSSLData env (r.FormValue "host")).1.1.Host.data, plainInPath c = true) →
      (urlParse data.Result.data).bind (servedFile filesHandler) = some data.Name.data) := by
  obtain ⟨resp, t₁, hf, hdata, htrace⟩ := analyzeHandler_success_inv env r contentType name data hok
  rw [hf]
  simp only
  subst hdata
  have hlink : ("http://" ++ r.Host ++ "/" ++ (filesBaseURL ++ "ssl_report_" ++ resp.Host
      ++ ".pdf")).data = "http://".data ++ r.Host.data
        ++ '/' :: ("files/".data ++ ("ssl_report_".data ++ resp.Host.data ++ ".pdf".data)) := by
    simp [filesBaseURL]
  have hname : (filesBaseURL ++ "ssl_report_" ++ resp.Host ++ ".pdf").data
      = "files/".data ++ ("ssl_report_".data ++ resp.Host.data ++ ".pdf".data) := by
    simp [filesBaseURL]
  refine ⟨?_, ?_, ?_, ?_, ?_⟩
  · apply String.ext
    simp [filesBaseURL]
  · exact filename_eq resp.Host
  · exact ⟨pdfOps env.now resp, by rw [htrace]; simp⟩
  · intro serverPort
    cases hl : env.listenAndServe serverPort <;> simp [serve, hl]
  · intro ha hh
    obtain ⟨n₁, n₂, n₃, n₄, n₅, n₀, nall⟩ := reportName_facts resp.Host.data hh
    obtain ⟨rp, hparse, hrp⟩ := urlParse_link r.Host.data _ ha nall
    simp only [hlink, hname, hparse, Option.some_bind]
    have := servedFile_filesHandler _ rp n₁ n₂ n₃ n₄ n₅ n₀ (by simpa using hrp)
    simpa using this

theorem report_link_resolves_witness :
    (analyzeHandler (envWith sampleReady) (postOf "example.com")).1 =
      Reply.executeTemplate "application/json" "result"
        { Result := "http://localhost:8080/files/ssl_report_example.com.pdf",
          Completed := true, Error := "", Name := "files/ssl_report_example.com.pdf" } ∧
    IsHostPort (postOf "example.com").Host.data ∧
    (∀ c ∈ sampleReady.Host.data, plainInPath c = true) ∧
    (urlParse "http://localhost:8080/files/ssl_report_example.com.pdf".data).bind
      (servedFile filesHandler) = some "files/ssl_report_example.com.pdf".data :=
  have ha : IsHostPort (postOf "example.com").Host.data :=
    ⟨"localhost".data, "8080".data, Or.inr rfl, by decide, by decide⟩
  have hh : ∀ c ∈ sampleReady.Host.data, plainInPath c = true := by decide
  ⟨rfl, ha, hh,
    (report_link_resolves (envWith sampleReady) (postOf "example.com") "application/json"
      "result"
      { Result := "http://localhost:8080/files/ssl_report_example.com.pdf",
        Completed := true, Error := "", Name := "files/ssl_report_example.com.pdf" }
      rfl).2.2.2.2 ha hh⟩

/-- Other links that do not lead to the file: the link is cut in the same way
at a `#`; a percent escape in the host field is decoded before the file is
looked up; a `/` in the Host value moves the path off the `/files/` route; and
a link with a control character or a port that is not a number is not a URL
at all. -/
theorem report_link_other_cuts :
    (urlParse "http://localhost:8080/files/ssl_report_a#b.pdf".data).bind
        (servedFile filesHandler) = some "files/ssl_report_a".data ∧
    (urlParse "http://localhost:8080/files/ssl_report_%41.pdf".data).bind
        (servedFile filesHandler) = some "files/ssl_report_A.pdf".data ∧
    (urlParse "http://x/y/files/ssl_report_a.pdf".data).bind (servedFile filesHandler) = none ∧
    urlParse "http://localhost:8080/files/ssl_report_a\tb.pdf".data = none ∧
    urlParse "http://localhost:abc/files/ssl_report_a.pdf".data = none ∧
    urlParse "http://x%41/files/ssl_report_a.pdf".data = none := by
  decide

end SSLConfiguration
